import Mathlib

/-!
Shallow embedding of `aom_dsp/arm/highbd_hadamard_neon.c` (repository
jbeich/aom): the high-bit-depth 8x8 Hadamard-style transform kernel and its
16x16 / 32x32 recursive compositions.

Modelling conventions.

NEON vectors are modelled lane-wise: every intrinsic acts independently on
each 16-bit or 32-bit lane, so an `int16x8_t` (resp. `int32x4_t`) value is
represented by the integer value of one of its lanes, and a whole register by
a function from the lane index.  Machine integers are unbounded `ℤ` together
with an explicit reduction into the signed 16-bit or 32-bit range at every
operation that the hardware performs at that width.  On `ℤ`, `/` and `%` are
`Int.ediv` / `Int.emod`; for a positive power-of-two divisor `Int.ediv` is
floor division, which is exactly the arithmetic right shift of a value that
fits the machine width.

Sample buffers are functions `ℕ → ℤ` from the flat element offset measured
from the `src_diff` (resp. `coeff`) base pointer; a pointer offset `p + k`
becomes function pre-composition with `k + ·`, and the row stride is an
explicit `ℕ` parameter.  Output coefficient buffers (`tran_low_t`, i.e.
`int32_t`) are functions `ℕ → ℤ` defined at offsets `0 .. N*N - 1`; the
in-place combine loops of the 16x16 and 32x32 kernels are folds over the
loop counter.
-/

namespace AomHbd

/-- Reduction of an integer into the signed 16-bit range `[-32768, 32767]`:
the value held by an `int16x8_t` lane after an operation that wraps
modulo `2^16`. -/
def wrap16 (x : ℤ) : ℤ := (x + 32768) % 65536 - 32768

/-- Reduction of an integer into the signed 32-bit range: the value held by
an `int32x4_t` lane after an operation that wraps modulo `2^32`. -/
def wrap32 (x : ℤ) : ℤ := (x + 2147483648) % 4294967296 - 2147483648

/-- Lane semantics of `vaddq_s16`: 16-bit addition, wrapping on overflow. -/
def vaddq_s16 (a b : ℤ) : ℤ := wrap16 (a + b)

/-- Lane semantics of `vsubq_s16`: 16-bit subtraction, wrapping on overflow. -/
def vsubq_s16 (a b : ℤ) : ℤ := wrap16 (a - b)

/-- Lane semantics of `vaddl_s16`: widening 16-bit to 32-bit addition; the
sum of two signed 16-bit values always fits in 32 bits, so it is exact. -/
def vaddl_s16 (a b : ℤ) : ℤ := a + b

/-- Lane semantics of `vsubl_s16`: widening 16-bit to 32-bit subtraction,
exact for signed 16-bit operands. -/
def vsubl_s16 (a b : ℤ) : ℤ := a - b

/-- Lane semantics of `vaddq_s32`: 32-bit addition, wrapping on overflow. -/
def vaddq_s32 (a b : ℤ) : ℤ := wrap32 (a + b)

/-- Lane semantics of `vsubq_s32`: 32-bit subtraction, wrapping on overflow. -/
def vsubq_s32 (a b : ℤ) : ℤ := wrap32 (a - b)

/-- Lane semantics of `vhaddq_s32`: halving add.  The sum is formed at full
intermediate precision and arithmetically shifted right by one (floor
division by 2), so the addition itself cannot wrap; the result of the shift
always fits in 32 bits when the operands do, making the outer reduction the
identity there. -/
def vhaddq_s32 (a b : ℤ) : ℤ := wrap32 ((a + b) / 2)

/-- Lane semantics of `vhsubq_s32`: halving subtract, full intermediate
precision, floor semantics. -/
def vhsubq_s32 (a b : ℤ) : ℤ := wrap32 ((a - b) / 2)

/-- Lane semantics of `vshrq_n_s32 _ n`: arithmetic right shift of a signed
32-bit value, i.e. floor division by `2^n`; the result of the shift of an
in-range value is in range, so no reduction is needed. -/
def vshrq_n_s32 (a : ℤ) (n : ℕ) : ℤ := a / 2 ^ n

/-- Lane-wise model of `hadamard_highbd_col8_first_pass`: the three-stage
8-point butterfly network in 16-bit arithmetic.  `a i` is the lane value of
register `*aᵢ`; the result function gives the value written back to `*aₖ`
(the write-back order of the source is the sequency permutation).  Indices
`k ≥ 8` do not correspond to a register and are mapped to `0`. -/
def hadamard_highbd_col8_first_pass (a : ℕ → ℤ) : ℕ → ℤ :=
  let b0 := vaddq_s16 (a 0) (a 1)
  let b1 := vsubq_s16 (a 0) (a 1)
  let b2 := vaddq_s16 (a 2) (a 3)
  let b3 := vsubq_s16 (a 2) (a 3)
  let b4 := vaddq_s16 (a 4) (a 5)
  let b5 := vsubq_s16 (a 4) (a 5)
  let b6 := vaddq_s16 (a 6) (a 7)
  let b7 := vsubq_s16 (a 6) (a 7)
  let c0 := vaddq_s16 b0 b2
  let c2 := vsubq_s16 b0 b2
  let c1 := vaddq_s16 b1 b3
  let c3 := vsubq_s16 b1 b3
  let c4 := vaddq_s16 b4 b6
  let c6 := vsubq_s16 b4 b6
  let c5 := vaddq_s16 b5 b7
  let c7 := vsubq_s16 b5 b7
  fun k =>
    if k = 0 then vaddq_s16 c0 c4
    else if k = 1 then vsubq_s16 c2 c6
    else if k = 2 then vsubq_s16 c0 c4
    else if k = 3 then vaddq_s16 c2 c6
    else if k = 4 then vaddq_s16 c3 c7
    else if k = 5 then vsubq_s16 c3 c7
    else if k = 6 then vsubq_s16 c1 c5
    else if k = 7 then vaddq_s16 c1 c5
    else 0

/-- Lane-wise model of `hadamard_highbd_col4_second_pass`: the same
three-stage butterfly network, with the first stage widening 16-bit lanes to
32-bit (`vaddl_s16` / `vsubl_s16`, exact) and the remaining stages in 32-bit
arithmetic.  The result function gives the lane value of `d_k`, which the
source stores at `coeff + 4*k`; the flat output indexing is done by the
caller `aom_highbd_hadamard_8x8_neon` below. -/
def hadamard_highbd_col4_second_pass (a : ℕ → ℤ) : ℕ → ℤ :=
  let b0 := vaddl_s16 (a 0) (a 1)
  let b1 := vsubl_s16 (a 0) (a 1)
  let b2 := vaddl_s16 (a 2) (a 3)
  let b3 := vsubl_s16 (a 2) (a 3)
  let b4 := vaddl_s16 (a 4) (a 5)
  let b5 := vsubl_s16 (a 4) (a 5)
  let b6 := vaddl_s16 (a 6) (a 7)
  let b7 := vsubl_s16 (a 6) (a 7)
  let c0 := vaddq_s32 b0 b2
  let c2 := vsubq_s32 b0 b2
  let c1 := vaddq_s32 b1 b3
  let c3 := vsubq_s32 b1 b3
  let c4 := vaddq_s32 b4 b6
  let c6 := vsubq_s32 b4 b6
  let c5 := vaddq_s32 b5 b7
  let c7 := vsubq_s32 b5 b7
  fun k =>
    if k = 0 then vaddq_s32 c0 c4
    else if k = 1 then vsubq_s32 c2 c6
    else if k = 2 then vsubq_s32 c0 c4
    else if k = 3 then vaddq_s32 c2 c6
    else if k = 4 then vaddq_s32 c3 c7
    else if k = 5 then vsubq_s32 c3 c7
    else if k = 6 then vsubq_s32 c1 c5
    else if k = 7 then vaddq_s32 c1 c5
    else 0

/-- Model of `aom_highbd_hadamard_8x8_neon`.  The source loads row `r` into
register `s_r` (lane `c` holds `src_diff[r*stride + c]`), runs the first
pass on `s0..s7` (an 8-point butterfly across the registers, i.e. down each
column `c`), transposes in place (so register `i` lane `j` then holds first
pass output `j` of column `i`), and runs the second pass once on the low 4
lanes (written to `coeff ..  coeff+31`) and once on the high 4 lanes
(written to `coeff+32 .. coeff+63`), output `d_k` of each call going to the
4 consecutive elements at relative offset `4*k`.  Hence flat output index
`n = 32*g + 4*k + l` (group `g`, lane-within-group `l`) holds second pass
output `k` computed over lane `j = 4*g + l` of the transposed registers:
`g = n / 32`, `k = n % 32 / 4`, `l = n % 4`. -/
def aom_highbd_hadamard_8x8_neon (src : ℕ → ℤ) (stride : ℕ) : ℕ → ℤ :=
  fun n =>
    hadamard_highbd_col4_second_pass
      (fun i =>
        hadamard_highbd_col8_first_pass (fun r => src (r * stride + i))
          (4 * (n / 32) + n % 4))
      (n % 32 / 4)

/-- Element step of the in-place cross-quadrant combine loops: the four
quadrant sub-blocks of an output buffer start at element offsets
`0, off, 2*off, 3*off`; one loop iteration loads the four values at relative
element offset `j`, combines them with `f`, and stores the four results back
to the same offsets.  (The source loops process four consecutive elements
`j = 4*i .. 4*i+3` per iteration `i` in one `int32x4_t`; lane-wise this is
the same as one element per step.) -/
def combineAt (f : ℤ → ℤ → ℤ → ℤ → ℤ × ℤ × ℤ × ℤ) (off : ℕ) (buf : ℕ → ℤ)
    (j : ℕ) : ℕ → ℤ :=
  fun n =>
    if n = j then (f (buf j) (buf (j + off)) (buf (j + 2 * off)) (buf (j + 3 * off))).1
    else if n = j + off then
      (f (buf j) (buf (j + off)) (buf (j + 2 * off)) (buf (j + 3 * off))).2.1
    else if n = j + 2 * off then
      (f (buf j) (buf (j + off)) (buf (j + 2 * off)) (buf (j + 3 * off))).2.2.1
    else if n = j + 3 * off then
      (f (buf j) (buf (j + off)) (buf (j + 2 * off)) (buf (j + 3 * off))).2.2.2
    else buf n

/-- Whole in-place combine loop: fold of `combineAt` over all `off` element
offsets of one quadrant. -/
def combineBuf (f : ℤ → ℤ → ℤ → ℤ → ℤ × ℤ × ℤ × ℤ) (off : ℕ) (buf : ℕ → ℤ) :
    ℕ → ℤ :=
  (List.range off).foldl (combineAt f off) buf

/-- Output buffer of the composed kernels just before their combine loop:
the four quadrant results placed at element offsets `0, off, 2*off, 3*off`. -/
def quadBuf (off : ℕ) (q0 q1 q2 q3 : ℕ → ℤ) : ℕ → ℤ :=
  fun n =>
    if n < off then q0 n
    else if n < 2 * off then q1 (n - off)
    else if n < 3 * off then q2 (n - 2 * off)
    else q3 (n - 3 * off)

/-- Combine step of `aom_highbd_hadamard_16x16_neon`: halving adds and
subtracts (`vhaddq_s32` / `vhsubq_s32`) followed by plain 32-bit adds and
subtracts; returns `(c0, c1, c2, c3)` in store order. -/
def had16_combine (a0 a1 a2 a3 : ℤ) : ℤ × ℤ × ℤ × ℤ :=
  let b0 := vhaddq_s32 a0 a1
  let b1 := vhsubq_s32 a0 a1
  let b2 := vhaddq_s32 a2 a3
  let b3 := vhsubq_s32 a2 a3
  (vaddq_s32 b0 b2, vaddq_s32 b1 b3, vsubq_s32 b0 b2, vsubq_s32 b1 b3)

/-- Combine step of `aom_highbd_hadamard_32x32_neon`: 32-bit adds and
subtracts first, then arithmetic right shift by 2, then plain 32-bit adds
and subtracts. -/
def had32_combine (a0 a1 a2 a3 : ℤ) : ℤ × ℤ × ℤ × ℤ :=
  let b0 := vshrq_n_s32 (vaddq_s32 a0 a1) 2
  let b1 := vshrq_n_s32 (vsubq_s32 a0 a1) 2
  let b2 := vshrq_n_s32 (vaddq_s32 a2 a3) 2
  let b3 := vshrq_n_s32 (vsubq_s32 a2 a3) 2
  (vaddq_s32 b0 b2, vaddq_s32 b1 b3, vsubq_s32 b0 b2, vsubq_s32 b1 b3)

/-- Model of `aom_highbd_hadamard_16x16_neon`: the 8x8 kernel on the four
quadrants of the 16x16 source (top-left `src_diff`, top-right
`src_diff + 8`, bottom-left `src_diff + 8*src_stride`, bottom-right
`src_diff + 8*src_stride + 8`) written to `coeff, coeff+64, coeff+128,
coeff+192`, followed by the in-place halving combine loop over the 64
element offsets of one quadrant. -/
def aom_highbd_hadamard_16x16_neon (src : ℕ → ℤ) (stride : ℕ) : ℕ → ℤ :=
  combineBuf had16_combine 64
    (quadBuf 64 (aom_highbd_hadamard_8x8_neon src stride)
      (aom_highbd_hadamard_8x8_neon (fun k => src (8 + k)) stride)
      (aom_highbd_hadamard_8x8_neon (fun k => src (8 * stride + k)) stride)
      (aom_highbd_hadamard_8x8_neon (fun k => src (8 * stride + 8 + k)) stride))

/-- Model of `aom_highbd_hadamard_32x32_neon`: the 16x16 kernel on the four
quadrants of the 32x32 source written to `coeff, coeff+256, coeff+512,
coeff+768`, followed by the in-place shift-by-2 combine loop over the 256
element offsets of one quadrant. -/
def aom_highbd_hadamard_32x32_neon (src : ℕ → ℤ) (stride : ℕ) : ℕ → ℤ :=
  combineBuf had32_combine 256
    (quadBuf 256 (aom_highbd_hadamard_16x16_neon src stride)
      (aom_highbd_hadamard_16x16_neon (fun k => src (16 + k)) stride)
      (aom_highbd_hadamard_16x16_neon (fun k => src (16 * stride + k)) stride)
      (aom_highbd_hadamard_16x16_neon (fun k => src (16 * stride + 16 + k)) stride))

/-! Specification-side definitions.

`butterfly8` is the three-stage butterfly network together with the fixed
sequency write-out permutation exactly as the specification states it
(stage 1: `b0 = a0+a1, b1 = a0-a1, ..., b7 = a6-a7`; stage 2:
`c0 = b0+b2, c2 = b0-b2, c1 = b1+b3, c3 = b1-b3, c4 = b4+b6, c6 = b4-b6,
c5 = b5+b7, c7 = b5-b7`; outputs `c0+c4, c2-c6, c0-c4, c2+c6, c3+c7,
c3-c7, c1-c5, c1+c5` at positions `0..7`), parameterized by the add and
subtract operations so that the narrow 16-bit pass and the widened 32-bit
pass are two instances of the one network.

The `exact` family is the same algorithm with exact (unbounded) integer
arithmetic everywhere, the reference against which absence of overflow and
wraparound is expressed.  The shifts (floor division by 2 or 4) remain,
since they are part of the algorithm, not of the machine width. -/

/-- Butterfly network plus sequency permutation as stated by the spec,
generic in the add/subtract operations. -/
def butterfly8 (padd psub : ℤ → ℤ → ℤ) (a : ℕ → ℤ) : ℕ → ℤ :=
  let b0 := padd (a 0) (a 1)
  let b1 := psub (a 0) (a 1)
  let b2 := padd (a 2) (a 3)
  let b3 := psub (a 2) (a 3)
  let b4 := padd (a 4) (a 5)
  let b5 := psub (a 4) (a 5)
  let b6 := padd (a 6) (a 7)
  let b7 := psub (a 6) (a 7)
  let c0 := padd b0 b2
  let c2 := psub b0 b2
  let c1 := padd b1 b3
  let c3 := psub b1 b3
  let c4 := padd b4 b6
  let c6 := psub b4 b6
  let c5 := padd b5 b7
  let c7 := psub b5 b7
  fun k =>
    if k = 0 then padd c0 c4
    else if k = 1 then psub c2 c6
    else if k = 2 then psub c0 c4
    else if k = 3 then padd c2 c6
    else if k = 4 then padd c3 c7
    else if k = 5 then psub c3 c7
    else if k = 6 then psub c1 c5
    else if k = 7 then padd c1 c5
    else 0

/-- The butterfly network with exact integer arithmetic: the common
mathematical content of both passes. -/
def hadamard_col8_exact (a : ℕ → ℤ) : ℕ → ℤ :=
  butterfly8 (· + ·) (· - ·) a

/-- The 8x8 kernel with exact integer arithmetic in both passes and the same
output indexing as `aom_highbd_hadamard_8x8_neon`. -/
def hadamard8_exact (src : ℕ → ℤ) (stride : ℕ) : ℕ → ℤ :=
  fun n =>
    hadamard_col8_exact
      (fun i =>
        hadamard_col8_exact (fun r => src (r * stride + i))
          (4 * (n / 32) + n % 4))
      (n % 32 / 4)

/-- The 16x16 combine step with exact arithmetic: floor-halving of the exact
sums and differences, then exact adds and subtracts. -/
def had16_combine_exact (a0 a1 a2 a3 : ℤ) : ℤ × ℤ × ℤ × ℤ :=
  let b0 := (a0 + a1) / 2
  let b1 := (a0 - a1) / 2
  let b2 := (a2 + a3) / 2
  let b3 := (a2 - a3) / 2
  (b0 + b2, b1 + b3, b0 - b2, b1 - b3)

/-- The 32x32 combine step with exact arithmetic: floor division of the
exact sums and differences by 4, then exact adds and subtracts. -/
def had32_combine_exact (a0 a1 a2 a3 : ℤ) : ℤ × ℤ × ℤ × ℤ :=
  let b0 := (a0 + a1) / 4
  let b1 := (a0 - a1) / 4
  let b2 := (a2 + a3) / 4
  let b3 := (a2 - a3) / 4
  (b0 + b2, b1 + b3, b0 - b2, b1 - b3)

/-- The 16x16 kernel with exact arithmetic throughout. -/
def hadamard16_exact (src : ℕ → ℤ) (stride : ℕ) : ℕ → ℤ :=
  combineBuf had16_combine_exact 64
    (quadBuf 64 (hadamard8_exact src stride)
      (hadamard8_exact (fun k => src (8 + k)) stride)
      (hadamard8_exact (fun k => src (8 * stride + k)) stride)
      (hadamard8_exact (fun k => src (8 * stride + 8 + k)) stride))

/-- The 32x32 kernel with exact arithmetic throughout. -/
def hadamard32_exact (src : ℕ → ℤ) (stride : ℕ) : ℕ → ℤ :=
  combineBuf had32_combine_exact 256
    (quadBuf 256 (hadamard16_exact src stride)
      (hadamard16_exact (fun k => src (16 + k)) stride)
      (hadamard16_exact (fun k => src (16 * stride + k)) stride)
      (hadamard16_exact (fun k => src (16 * stride + 16 + k)) stride))

/-- Extraction of the `(N/2)x(N/2)` quadrant of a sample grid whose top-left
corner is at row `r0`, column `c0`, in source stride units: the quadrant
geometry of the composition, expressed on the input sample grid. -/
def quadrantSrc (src : ℕ → ℤ) (stride r0 c0 : ℕ) : ℕ → ℤ :=
  fun k => src (r0 * stride + c0 + k)

/-- Composition step of the 16x16 transform as the spec describes it: place
four independently computed 8x8 coefficient blocks at element offsets
`0, 64, 128, 192` and run the halving cross-quadrant combine. -/
def Compose16 (q0 q1 q2 q3 : ℕ → ℤ) : ℕ → ℤ :=
  combineBuf had16_combine 64 (quadBuf 64 q0 q1 q2 q3)

/-- Mathematical 2-D sequency-ordered coefficient of an 8x8 block at
sequency row `r` (across the 8 rows, i.e. along each column) and sequency
column `c` (across the 8 columns), with exact arithmetic: the vertical
1-D network at index `r` applied to every column, then the horizontal 1-D
network at index `c` across the 8 resulting values. -/
def coeff2d (src : ℕ → ℤ) (stride : ℕ) (r c : ℕ) : ℤ :=
  hadamard_col8_exact
    (fun i => hadamard_col8_exact (fun y => src (y * stride + i)) r) c

/-- Unit impulse at flat sample offset 2, i.e. at row 0, column 2 of an 8x8
block of stride 8: a concrete input block. -/
def imp8 : ℕ → ℤ := fun n => if n = 2 then 1 else 0

/-! Helper lemmas on the butterfly passes. -/

/-- Outputs of the first pass are 16-bit values whatever the input is. -/
lemma first_pass_bound (a : ℕ → ℤ) (k : ℕ) :
    -32768 ≤ hadamard_highbd_col8_first_pass a k ∧
      hadamard_highbd_col8_first_pass a k ≤ 32767 := by
  simp only [hadamard_highbd_col8_first_pass, vaddq_s16, vsubq_s16, wrap16]
  split_ifs <;> omega

/-- On 12-bit-bounded inputs the narrow first pass never wraps: it agrees
with the exact butterfly network. -/
lemma first_pass_eq_exact (a : ℕ → ℤ)
    (h : ∀ i, i < 8 → -4095 ≤ a i ∧ a i ≤ 4095) (k : ℕ) :
    hadamard_highbd_col8_first_pass a k = hadamard_col8_exact a k := by
  have h0 := h 0 (by omega); have h1 := h 1 (by omega)
  have h2 := h 2 (by omega); have h3 := h 3 (by omega)
  have h4 := h 4 (by omega); have h5 := h 5 (by omega)
  have h6 := h 6 (by omega); have h7 := h 7 (by omega)
  simp only [hadamard_highbd_col8_first_pass, hadamard_col8_exact, butterfly8,
    vaddq_s16, vsubq_s16, wrap16]
  split_ifs <;> omega

/-- On 12-bit-bounded inputs every exact butterfly output has magnitude at
most `8 * 4095 = 32760`. -/
lemma col8_exact_bound (a : ℕ → ℤ)
    (h : ∀ i, i < 8 → -4095 ≤ a i ∧ a i ≤ 4095) (k : ℕ) :
    -32760 ≤ hadamard_col8_exact a k ∧ hadamard_col8_exact a k ≤ 32760 := by
  have h0 := h 0 (by omega); have h1 := h 1 (by omega)
  have h2 := h 2 (by omega); have h3 := h 3 (by omega)
  have h4 := h 4 (by omega); have h5 := h 5 (by omega)
  have h6 := h 6 (by omega); have h7 := h 7 (by omega)
  simp only [hadamard_col8_exact, butterfly8]
  split_ifs <;> omega

/-- On 16-bit-bounded inputs the widened second pass never wraps: it agrees
with the exact butterfly network. -/
lemma second_pass_eq_exact (a : ℕ → ℤ)
    (h : ∀ i, i < 8 → -32768 ≤ a i ∧ a i ≤ 32767) (k : ℕ) :
    hadamard_highbd_col4_second_pass a k = hadamard_col8_exact a k := by
  have h0 := h 0 (by omega); have h1 := h 1 (by omega)
  have h2 := h 2 (by omega); have h3 := h 3 (by omega)
  have h4 := h 4 (by omega); have h5 := h 5 (by omega)
  have h6 := h 6 (by omega); have h7 := h 7 (by omega)
  simp only [hadamard_highbd_col4_second_pass, hadamard_col8_exact, butterfly8,
    vaddl_s16, vsubl_s16, vaddq_s32, vsubq_s32, wrap32]
  split_ifs <;> omega

/-- On 16-bit-bounded inputs the second pass coincides with the generic
butterfly network instantiated with the wrapping 32-bit operations (the
widening first stage cannot wrap on such inputs). -/
lemma second_pass_eq_butterfly32 (a : ℕ → ℤ)
    (h : ∀ i, i < 8 → -32768 ≤ a i ∧ a i ≤ 32767) (k : ℕ) :
    hadamard_highbd_col4_second_pass a k =
      butterfly8 vaddq_s32 vsubq_s32 a k := by
  have h0 := h 0 (by omega); have h1 := h 1 (by omega)
  have h2 := h 2 (by omega); have h3 := h 3 (by omega)
  have h4 := h 4 (by omega); have h5 := h 5 (by omega)
  have h6 := h 6 (by omega); have h7 := h 7 (by omega)
  simp only [hadamard_highbd_col4_second_pass, butterfly8, vaddl_s16,
    vsubl_s16, vaddq_s32, vsubq_s32, wrap32]
  split_ifs <;> omega

/-- On 16-bit-bounded inputs every second pass output has magnitude at most
`8 * 32768 = 2^18`. -/
lemma second_pass_bound (a : ℕ → ℤ)
    (h : ∀ i, i < 8 → -32768 ≤ a i ∧ a i ≤ 32767) (k : ℕ) :
    -262144 ≤ hadamard_highbd_col4_second_pass a k ∧
      hadamard_highbd_col4_second_pass a k ≤ 262144 := by
  have h0 := h 0 (by omega); have h1 := h 1 (by omega)
  have h2 := h 2 (by omega); have h3 := h 3 (by omega)
  have h4 := h 4 (by omega); have h5 := h 5 (by omega)
  have h6 := h 6 (by omega); have h7 := h 7 (by omega)
  simp only [hadamard_highbd_col4_second_pass, vaddl_s16, vsubl_s16,
    vaddq_s32, vsubq_s32, wrap32]
  split_ifs <;> omega

/-- The second pass reads only lanes `0..7` of its input. -/
lemma second_pass_congr (a b : ℕ → ℤ) (h : ∀ i, i < 8 → a i = b i) (k : ℕ) :
    hadamard_highbd_col4_second_pass a k =
      hadamard_highbd_col4_second_pass b k := by
  simp only [hadamard_highbd_col4_second_pass]
  rw [h 0 (by omega), h 1 (by omega), h 2 (by omega), h 3 (by omega),
    h 4 (by omega), h 5 (by omega), h 6 (by omega), h 7 (by omega)]

/-- The exact butterfly network is additive. -/
lemma col8_exact_add (u v : ℕ → ℤ) (k : ℕ) :
    hadamard_col8_exact (fun i => u i + v i) k =
      hadamard_col8_exact u k + hadamard_col8_exact v k := by
  simp only [hadamard_col8_exact, butterfly8]
  split_ifs <;> ring

/-- The exact butterfly network on a constant vector: output 0 is eight
times the constant, every other output is zero. -/
lemma col8_exact_const (v : ℤ) (k : ℕ) :
    hadamard_col8_exact (fun _ => v) k = if k = 0 then 8 * v else 0 := by
  simp only [hadamard_col8_exact, butterfly8]
  split_ifs <;> ring

/-! Characterization of the in-place combine loop.  Iteration `j` of the
fold reads and writes exactly the offsets `j, j+off, j+2*off, j+3*off`, and
distinct iterations touch disjoint offsets, so after the first `m`
iterations an offset holds the combined value (computed from the original
buffer) iff its in-quadrant index `n % off` is below `m`.  The lemma is
stated and proved separately for the two offsets in use, 64 and 256. -/

lemma combineBuf_partial64 (f : ℤ → ℤ → ℤ → ℤ → ℤ × ℤ × ℤ × ℤ)
    (buf : ℕ → ℤ) (m : ℕ) :
    m ≤ 64 → ∀ n,
      (List.range m).foldl (combineAt f 64) buf n =
        if n < 4 * 64 ∧ n % 64 < m then
          (if n < 64 then
            (f (buf (n % 64)) (buf (n % 64 + 64)) (buf (n % 64 + 2 * 64))
              (buf (n % 64 + 3 * 64))).1
           else if n < 2 * 64 then
            (f (buf (n % 64)) (buf (n % 64 + 64)) (buf (n % 64 + 2 * 64))
              (buf (n % 64 + 3 * 64))).2.1
           else if n < 3 * 64 then
            (f (buf (n % 64)) (buf (n % 64 + 64)) (buf (n % 64 + 2 * 64))
              (buf (n % 64 + 3 * 64))).2.2.1
           else
            (f (buf (n % 64)) (buf (n % 64 + 64)) (buf (n % 64 + 2 * 64))
              (buf (n % 64 + 3 * 64))).2.2.2)
        else buf n := by
  induction m with
  | zero =>
    intro _ n
    rw [List.range_zero, List.foldl_nil, if_neg (by omega)]
  | succ m ih =>
    intro hm n
    have ihm := ih (by omega)
    rw [List.range_succ, List.foldl_append, List.foldl_cons, List.foldl_nil]
    have r0 := (ihm m).trans (if_neg (by omega))
    have r1 := (ihm (m + 64)).trans (if_neg (by omega))
    have r2 := (ihm (m + 2 * 64)).trans (if_neg (by omega))
    have r3 := (ihm (m + 3 * 64)).trans (if_neg (by omega))
    simp only [combineAt]
    by_cases h0 : n = m
    · subst h0
      rw [if_pos rfl, r0, r1, r2, r3, Nat.mod_eq_of_lt (show n < 64 by omega),
        if_pos (show n < 4 * 64 ∧ n < n + 1 by omega),
        if_pos (show n < 64 by omega)]
    · by_cases h1 : n = m + 64
      · subst h1
        rw [if_neg h0, if_pos rfl, r0, r1, r2, r3, Nat.add_mod_right,
          Nat.mod_eq_of_lt (show m < 64 by omega),
          if_pos (show m + 64 < 4 * 64 ∧ m < m + 1 by omega),
          if_neg (show ¬(m + 64 < 64) by omega),
          if_pos (show m + 64 < 2 * 64 by omega)]
      · by_cases h2 : n = m + 2 * 64
        · subst h2
          rw [if_neg h0, if_neg h1, if_pos rfl, r0, r1, r2, r3,
            Nat.add_mul_mod_self_right,
            Nat.mod_eq_of_lt (show m < 64 by omega),
            if_pos (show m + 2 * 64 < 4 * 64 ∧ m < m + 1 by omega),
            if_neg (show ¬(m + 2 * 64 < 64) by omega),
            if_neg (show ¬(m + 2 * 64 < 2 * 64) by omega),
            if_pos (show m + 2 * 64 < 3 * 64 by omega)]
        · by_cases h3 : n = m + 3 * 64
          · subst h3
            rw [if_neg h0, if_neg h1, if_neg h2, if_pos rfl, r0, r1, r2, r3,
              Nat.add_mul_mod_self_right,
              Nat.mod_eq_of_lt (show m < 64 by omega),
              if_pos (show m + 3 * 64 < 4 * 64 ∧ m < m + 1 by omega),
              if_neg (show ¬(m + 3 * 64 < 64) by omega),
              if_neg (show ¬(m + 3 * 64 < 2 * 64) by omega),
              if_neg (show ¬(m + 3 * 64 < 3 * 64) by omega)]
          · rw [if_neg h0, if_neg h1, if_neg h2, if_neg h3, ihm n]
            split_ifs <;> first | rfl | (exfalso; omega)

lemma combineBuf_partial256 (f : ℤ → ℤ → ℤ → ℤ → ℤ × ℤ × ℤ × ℤ)
    (buf : ℕ → ℤ) (m : ℕ) :
    m ≤ 256 → ∀ n,
      (List.range m).foldl (combineAt f 256) buf n =
        if n < 4 * 256 ∧ n % 256 < m then
          (if n < 256 then
            (f (buf (n % 256)) (buf (n % 256 + 256)) (buf (n % 256 + 2 * 256))
              (buf (n % 256 + 3 * 256))).1
           else if n < 2 * 256 then
            (f (buf (n % 256)) (buf (n % 256 + 256)) (buf (n % 256 + 2 * 256))
              (buf (n % 256 + 3 * 256))).2.1
           else if n < 3 * 256 then
            (f (buf (n % 256)) (buf (n % 256 + 256)) (buf (n % 256 + 2 * 256))
              (buf (n % 256 + 3 * 256))).2.2.1
           else
            (f (buf (n % 256)) (buf (n % 256 + 256)) (buf (n % 256 + 2 * 256))
              (buf (n % 256 + 3 * 256))).2.2.2)
        else buf n := by
  induction m with
  | zero =>
    intro _ n
    rw [List.range_zero, List.foldl_nil, if_neg (by omega)]
  | succ m ih =>
    intro hm n
    have ihm := ih (by omega)
    rw [List.range_succ, List.foldl_append, List.foldl_cons, List.foldl_nil]
    have r0 := (ihm m).trans (if_neg (by omega))
    have r1 := (ihm (m + 256)).trans (if_neg (by omega))
    have r2 := (ihm (m + 2 * 256)).trans (if_neg (by omega))
    have r3 := (ihm (m + 3 * 256)).trans (if_neg (by omega))
    simp only [combineAt]
    by_cases h0 : n = m
    · subst h0
      rw [if_pos rfl, r0, r1, r2, r3, Nat.mod_eq_of_lt (show n < 256 by omega),
        if_pos (show n < 4 * 256 ∧ n < n + 1 by omega),
        if_pos (show n < 256 by omega)]
    · by_cases h1 : n = m + 256
      · subst h1
        rw [if_neg h0, if_pos rfl, r0, r1, r2, r3, Nat.add_mod_right,
          Nat.mod_eq_of_lt (show m < 256 by omega),
          if_pos (show m + 256 < 4 * 256 ∧ m < m + 1 by omega),
          if_neg (show ¬(m + 256 < 256) by omega),
          if_pos (show m + 256 < 2 * 256 by omega)]
      · by_cases h2 : n = m + 2 * 256
        · subst h2
          rw [if_neg h0, if_neg h1, if_pos rfl, r0, r1, r2, r3,
            Nat.add_mul_mod_self_right,
            Nat.mod_eq_of_lt (show m < 256 by omega),
            if_pos (show m + 2 * 256 < 4 * 256 ∧ m < m + 1 by omega),
            if_neg (show ¬(m + 2 * 256 < 256) by omega),
            if_neg (show ¬(m + 2 * 256 < 2 * 256) by omega),
            if_pos (show m + 2 * 256 < 3 * 256 by omega)]
        · by_cases h3 : n = m + 3 * 256
          · subst h3
            rw [if_neg h0, if_neg h1, if_neg h2, if_pos rfl, r0, r1, r2, r3,
              Nat.add_mul_mod_self_right,
              Nat.mod_eq_of_lt (show m < 256 by omega),
              if_pos (show m + 3 * 256 < 4 * 256 ∧ m < m + 1 by omega),
              if_neg (show ¬(m + 3 * 256 < 256) by omega),
              if_neg (show ¬(m + 3 * 256 < 2 * 256) by omega),
              if_neg (show ¬(m + 3 * 256 < 3 * 256) by omega)]
          · rw [if_neg h0, if_neg h1, if_neg h2, if_neg h3, ihm n]
            split_ifs <;> first | rfl | (exfalso; omega)

/-! Evaluation of `quadBuf` at in-range offsets of each quadrant. -/

lemma quadBuf_q0 (off : ℕ) (q0 q1 q2 q3 : ℕ → ℤ) (j : ℕ) (hj : j < off) :
    quadBuf off q0 q1 q2 q3 j = q0 j := by
  simp only [quadBuf]
  rw [if_pos hj]

lemma quadBuf_q1 (off : ℕ) (q0 q1 q2 q3 : ℕ → ℤ) (j : ℕ) (hj : j < off) :
    quadBuf off q0 q1 q2 q3 (j + off) = q1 j := by
  simp only [quadBuf]
  rw [if_neg (show ¬(j + off < off) by omega),
    if_pos (show j + off < 2 * off by omega), Nat.add_sub_cancel]

lemma quadBuf_q2 (off : ℕ) (q0 q1 q2 q3 : ℕ → ℤ) (j : ℕ) (hj : j < off) :
    quadBuf off q0 q1 q2 q3 (j + 2 * off) = q2 j := by
  simp only [quadBuf]
  rw [if_neg (show ¬(j + 2 * off < off) by omega),
    if_neg (show ¬(j + 2 * off < 2 * off) by omega),
    if_pos (show j + 2 * off < 3 * off by omega), Nat.add_sub_cancel]

lemma quadBuf_q3 (off : ℕ) (q0 q1 q2 q3 : ℕ → ℤ) (j : ℕ) (_hj : j < off) :
    quadBuf off q0 q1 q2 q3 (j + 3 * off) = q3 j := by
  simp only [quadBuf]
  rw [if_neg (show ¬(j + 3 * off < off) by omega),
    if_neg (show ¬(j + 3 * off < 2 * off) by omega),
    if_neg (show ¬(j + 3 * off < 3 * off) by omega), Nat.add_sub_cancel]

/-- Values of the whole 64-offset combine loop on a quadrant-placed buffer,
at the four offsets belonging to in-quadrant index `j`. -/
lemma combine_quad64 (f : ℤ → ℤ → ℤ → ℤ → ℤ × ℤ × ℤ × ℤ)
    (q0 q1 q2 q3 : ℕ → ℤ) (j : ℕ) (hj : j < 64) :
    combineBuf f 64 (quadBuf 64 q0 q1 q2 q3) j =
        (f (q0 j) (q1 j) (q2 j) (q3 j)).1 ∧
      combineBuf f 64 (quadBuf 64 q0 q1 q2 q3) (j + 64) =
        (f (q0 j) (q1 j) (q2 j) (q3 j)).2.1 ∧
      combineBuf f 64 (quadBuf 64 q0 q1 q2 q3) (j + 2 * 64) =
        (f (q0 j) (q1 j) (q2 j) (q3 j)).2.2.1 ∧
      combineBuf f 64 (quadBuf 64 q0 q1 q2 q3) (j + 3 * 64) =
        (f (q0 j) (q1 j) (q2 j) (q3 j)).2.2.2 := by
  have hc := combineBuf_partial64 f (quadBuf 64 q0 q1 q2 q3) 64 le_rfl
  refine ⟨?v0, ?v1, ?v2, ?v3⟩
  · rw [combineBuf, hc j, if_pos (by omega), if_pos hj,
      Nat.mod_eq_of_lt (show j < 64 by omega), quadBuf_q0 64 q0 q1 q2 q3 j hj,
      quadBuf_q1 64 q0 q1 q2 q3 j hj, quadBuf_q2 64 q0 q1 q2 q3 j hj,
      quadBuf_q3 64 q0 q1 q2 q3 j hj]
  · rw [combineBuf, hc (j + 64), if_pos (by omega),
      if_neg (show ¬(j + 64 < 64) by omega), if_pos (show j + 64 < 2 * 64 by omega),
      Nat.add_mod_right, Nat.mod_eq_of_lt (show j < 64 by omega),
      quadBuf_q0 64 q0 q1 q2 q3 j hj, quadBuf_q1 64 q0 q1 q2 q3 j hj,
      quadBuf_q2 64 q0 q1 q2 q3 j hj, quadBuf_q3 64 q0 q1 q2 q3 j hj]
  · rw [combineBuf, hc (j + 2 * 64), if_pos (by omega),
      if_neg (show ¬(j + 2 * 64 < 64) by omega),
      if_neg (show ¬(j + 2 * 64 < 2 * 64) by omega),
      if_pos (show j + 2 * 64 < 3 * 64 by omega),
      Nat.add_mul_mod_self_right, Nat.mod_eq_of_lt (show j < 64 by omega),
      quadBuf_q0 64 q0 q1 q2 q3 j hj, quadBuf_q1 64 q0 q1 q2 q3 j hj,
      quadBuf_q2 64 q0 q1 q2 q3 j hj, quadBuf_q3 64 q0 q1 q2 q3 j hj]
  · rw [combineBuf, hc (j + 3 * 64), if_pos (by omega),
      if_neg (show ¬(j + 3 * 64 < 64) by omega),
      if_neg (show ¬(j + 3 * 64 < 2 * 64) by omega),
      if_neg (show ¬(j + 3 * 64 < 3 * 64) by omega),
      Nat.add_mul_mod_self_right, Nat.mod_eq_of_lt (show j < 64 by omega),
      quadBuf_q0 64 q0 q1 q2 q3 j hj, quadBuf_q1 64 q0 q1 q2 q3 j hj,
      quadBuf_q2 64 q0 q1 q2 q3 j hj, quadBuf_q3 64 q0 q1 q2 q3 j hj]

/-- Values of the whole 256-offset combine loop on a quadrant-placed
buffer, at the four offsets belonging to in-quadrant index `j`. -/
lemma combine_quad256 (f : ℤ → ℤ → ℤ → ℤ → ℤ × ℤ × ℤ × ℤ)
    (q0 q1 q2 q3 : ℕ → ℤ) (j : ℕ) (hj : j < 256) :
    combineBuf f 256 (quadBuf 256 q0 q1 q2 q3) j =
        (f (q0 j) (q1 j) (q2 j) (q3 j)).1 ∧
      combineBuf f 256 (quadBuf 256 q0 q1 q2 q3) (j + 256) =
        (f (q0 j) (q1 j) (q2 j) (q3 j)).2.1 ∧
      combineBuf f 256 (quadBuf 256 q0 q1 q2 q3) (j + 2 * 256) =
        (f (q0 j) (q1 j) (q2 j) (q3 j)).2.2.1 ∧
      combineBuf f 256 (quadBuf 256 q0 q1 q2 q3) (j + 3 * 256) =
        (f (q0 j) (q1 j) (q2 j) (q3 j)).2.2.2 := by
  have hc := combineBuf_partial256 f (quadBuf 256 q0 q1 q2 q3) 256 le_rfl
  refine ⟨?v0, ?v1, ?v2, ?v3⟩
  · rw [combineBuf, hc j, if_pos (by omega), if_pos hj,
      Nat.mod_eq_of_lt (show j < 256 by omega),
      quadBuf_q0 256 q0 q1 q2 q3 j hj, quadBuf_q1 256 q0 q1 q2 q3 j hj,
      quadBuf_q2 256 q0 q1 q2 q3 j hj, quadBuf_q3 256 q0 q1 q2 q3 j hj]
  · rw [combineBuf, hc (j + 256), if_pos (by omega),
      if_neg (show ¬(j + 256 < 256) by omega),
      if_pos (show j + 256 < 2 * 256 by omega),
      Nat.add_mod_right, Nat.mod_eq_of_lt (show j < 256 by omega),
      quadBuf_q0 256 q0 q1 q2 q3 j hj, quadBuf_q1 256 q0 q1 q2 q3 j hj,
      quadBuf_q2 256 q0 q1 q2 q3 j hj, quadBuf_q3 256 q0 q1 q2 q3 j hj]
  · rw [combineBuf, hc (j + 2 * 256), if_pos (by omega),
      if_neg (show ¬(j + 2 * 256 < 256) by omega),
      if_neg (show ¬(j + 2 * 256 < 2 * 256) by omega),
      if_pos (show j + 2 * 256 < 3 * 256 by omega),
      Nat.add_mul_mod_self_right, Nat.mod_eq_of_lt (show j < 256 by omega),
      quadBuf_q0 256 q0 q1 q2 q3 j hj, quadBuf_q1 256 q0 q1 q2 q3 j hj,
      quadBuf_q2 256 q0 q1 q2 q3 j hj, quadBuf_q3 256 q0 q1 q2 q3 j hj]
  · rw [combineBuf, hc (j + 3 * 256), if_pos (by omega),
      if_neg (show ¬(j + 3 * 256 < 256) by omega),
      if_neg (show ¬(j + 3 * 256 < 2 * 256) by omega),
      if_neg (show ¬(j + 3 * 256 < 3 * 256) by omega),
      Nat.add_mul_mod_self_right, Nat.mod_eq_of_lt (show j < 256 by omega),
      quadBuf_q0 256 q0 q1 q2 q3 j hj, quadBuf_q1 256 q0 q1 q2 q3 j hj,
      quadBuf_q2 256 q0 q1 q2 q3 j hj, quadBuf_q3 256 q0 q1 q2 q3 j hj]

/-! Bounds and no-overflow equivalences for the three kernels. -/

/-- Every 8x8 output coefficient has magnitude at most `2^18`, for every
input: the first pass produces 16-bit values by construction and the second
pass sums eight of them. -/
lemma hadamard8_bound (src : ℕ → ℤ) (stride n : ℕ) :
    -262144 ≤ aom_highbd_hadamard_8x8_neon src stride n ∧
      aom_highbd_hadamard_8x8_neon src stride n ≤ 262144 := by
  simp only [aom_highbd_hadamard_8x8_neon]
  exact second_pass_bound _ (fun i _ => first_pass_bound _ _) _

/-- A buffer assembled from four bounded quadrants is bounded. -/
lemma quadBuf_bound (off : ℕ) (q0 q1 q2 q3 : ℕ → ℤ) (lo hi : ℤ)
    (h0 : ∀ n, lo ≤ q0 n ∧ q0 n ≤ hi) (h1 : ∀ n, lo ≤ q1 n ∧ q1 n ≤ hi)
    (h2 : ∀ n, lo ≤ q2 n ∧ q2 n ≤ hi) (h3 : ∀ n, lo ≤ q3 n ∧ q3 n ≤ hi)
    (n : ℕ) :
    lo ≤ quadBuf off q0 q1 q2 q3 n ∧ quadBuf off q0 q1 q2 q3 n ≤ hi := by
  simp only [quadBuf]
  split_ifs <;> first | exact h0 _ | exact h1 _ | exact h2 _ | exact h3 _

/-- On arguments of magnitude at most `2^18` the halving 16x16 combine step
never wraps; its components are the exact floor-halved butterflies. -/
lemma had16_combine_eval (a0 a1 a2 a3 : ℤ)
    (h0 : -262144 ≤ a0 ∧ a0 ≤ 262144) (h1 : -262144 ≤ a1 ∧ a1 ≤ 262144)
    (h2 : -262144 ≤ a2 ∧ a2 ≤ 262144) (h3 : -262144 ≤ a3 ∧ a3 ≤ 262144) :
    had16_combine a0 a1 a2 a3 = had16_combine_exact a0 a1 a2 a3 := by
  simp only [had16_combine, had16_combine_exact, vhaddq_s32, vhsubq_s32,
    vaddq_s32, vsubq_s32, wrap32, Prod.mk.injEq]
  refine ⟨by omega, by omega, by omega, by omega⟩

/-- Components of the exact 16x16 combine step are bounded by `2^19` when
the arguments are bounded by `2^18`. -/
lemma had16_combine_exact_bound (a0 a1 a2 a3 : ℤ)
    (h0 : -262144 ≤ a0 ∧ a0 ≤ 262144) (h1 : -262144 ≤ a1 ∧ a1 ≤ 262144)
    (h2 : -262144 ≤ a2 ∧ a2 ≤ 262144) (h3 : -262144 ≤ a3 ∧ a3 ≤ 262144) :
    (-524288 ≤ (had16_combine_exact a0 a1 a2 a3).1 ∧
        (had16_combine_exact a0 a1 a2 a3).1 ≤ 524288) ∧
      (-524288 ≤ (had16_combine_exact a0 a1 a2 a3).2.1 ∧
        (had16_combine_exact a0 a1 a2 a3).2.1 ≤ 524288) ∧
      (-524288 ≤ (had16_combine_exact a0 a1 a2 a3).2.2.1 ∧
        (had16_combine_exact a0 a1 a2 a3).2.2.1 ≤ 524288) ∧
      (-524288 ≤ (had16_combine_exact a0 a1 a2 a3).2.2.2 ∧
        (had16_combine_exact a0 a1 a2 a3).2.2.2 ≤ 524288) := by
  simp only [had16_combine_exact]
  omega

/-- On arguments of magnitude at most `2^19` the shift-by-2 32x32 combine
step never wraps; its components are the exact floor-quartered
butterflies. -/
lemma had32_combine_eval (a0 a1 a2 a3 : ℤ)
    (h0 : -524288 ≤ a0 ∧ a0 ≤ 524288) (h1 : -524288 ≤ a1 ∧ a1 ≤ 524288)
    (h2 : -524288 ≤ a2 ∧ a2 ≤ 524288) (h3 : -524288 ≤ a3 ∧ a3 ≤ 524288) :
    had32_combine a0 a1 a2 a3 = had32_combine_exact a0 a1 a2 a3 := by
  simp only [had32_combine, had32_combine_exact, vshrq_n_s32, vaddq_s32,
    vsubq_s32, wrap32, Prod.mk.injEq]
  norm_num
  omega

/-- Components of the exact 32x32 combine step are bounded by `2^19` when
the arguments are: the quartering more than undoes the doubling. -/
lemma had32_combine_exact_bound (a0 a1 a2 a3 : ℤ)
    (h0 : -524288 ≤ a0 ∧ a0 ≤ 524288) (h1 : -524288 ≤ a1 ∧ a1 ≤ 524288)
    (h2 : -524288 ≤ a2 ∧ a2 ≤ 524288) (h3 : -524288 ≤ a3 ∧ a3 ≤ 524288) :
    (-524288 ≤ (had32_combine_exact a0 a1 a2 a3).1 ∧
        (had32_combine_exact a0 a1 a2 a3).1 ≤ 524288) ∧
      (-524288 ≤ (had32_combine_exact a0 a1 a2 a3).2.1 ∧
        (had32_combine_exact a0 a1 a2 a3).2.1 ≤ 524288) ∧
      (-524288 ≤ (had32_combine_exact a0 a1 a2 a3).2.2.1 ∧
        (had32_combine_exact a0 a1 a2 a3).2.2.1 ≤ 524288) ∧
      (-524288 ≤ (had32_combine_exact a0 a1 a2 a3).2.2.2 ∧
        (had32_combine_exact a0 a1 a2 a3).2.2.2 ≤ 524288) := by
  simp only [had32_combine_exact]
  omega

/-- Every 16x16 output coefficient has magnitude at most `2^19`, for every
input. -/
lemma hadamard16_bound (src : ℕ → ℤ) (stride n : ℕ) :
    -524288 ≤ aom_highbd_hadamard_16x16_neon src stride n ∧
      aom_highbd_hadamard_16x16_neon src stride n ≤ 524288 := by
  have hq := quadBuf_bound 64 (aom_highbd_hadamard_8x8_neon src stride)
    (aom_highbd_hadamard_8x8_neon (fun k => src (8 + k)) stride)
    (aom_highbd_hadamard_8x8_neon (fun k => src (8 * stride + k)) stride)
    (aom_highbd_hadamard_8x8_neon (fun k => src (8 * stride + 8 + k)) stride)
    (-262144) 262144 (hadamard8_bound _ _) (hadamard8_bound _ _)
    (hadamard8_bound _ _) (hadamard8_bound _ _)
  simp only [aom_highbd_hadamard_16x16_neon, combineBuf]
  rw [combineBuf_partial64 had16_combine _ 64 le_rfl n]
  have hcomb := had16_combine_exact_bound _ _ _ _ (hq (n % 64))
    (hq (n % 64 + 64)) (hq (n % 64 + 2 * 64)) (hq (n % 64 + 3 * 64))
  rw [had16_combine_eval _ _ _ _ (hq (n % 64)) (hq (n % 64 + 64))
    (hq (n % 64 + 2 * 64)) (hq (n % 64 + 3 * 64))] at *
  split_ifs
  · exact hcomb.1
  · exact hcomb.2.1
  · exact hcomb.2.2.1
  · exact hcomb.2.2.2
  · have := hq n
    constructor <;> omega

/-- Every 32x32 output coefficient has magnitude at most `2^19`, for every
input. -/
lemma hadamard32_bound (src : ℕ → ℤ) (stride n : ℕ) :
    -524288 ≤ aom_highbd_hadamard_32x32_neon src stride n ∧
      aom_highbd_hadamard_32x32_neon src stride n ≤ 524288 := by
  have hq := quadBuf_bound 256 (aom_highbd_hadamard_16x16_neon src stride)
    (aom_highbd_hadamard_16x16_neon (fun k => src (16 + k)) stride)
    (aom_highbd_hadamard_16x16_neon (fun k => src (16 * stride + k)) stride)
    (aom_highbd_hadamard_16x16_neon (fun k => src (16 * stride + 16 + k)) stride)
    (-524288) 524288 (hadamard16_bound _ _) (hadamard16_bound _ _)
    (hadamard16_bound _ _) (hadamard16_bound _ _)
  simp only [aom_highbd_hadamard_32x32_neon, combineBuf]
  rw [combineBuf_partial256 had32_combine _ 256 le_rfl n]
  have hcomb := had32_combine_exact_bound _ _ _ _ (hq (n % 256))
    (hq (n % 256 + 256)) (hq (n % 256 + 2 * 256)) (hq (n % 256 + 3 * 256))
  rw [had32_combine_eval _ _ _ _ (hq (n % 256)) (hq (n % 256 + 256))
    (hq (n % 256 + 2 * 256)) (hq (n % 256 + 3 * 256))] at *
  split_ifs
  · exact hcomb.1
  · exact hcomb.2.1
  · exact hcomb.2.2.1
  · exact hcomb.2.2.2
  · exact hq n

/-- On a 12-bit-bounded 8x8 block neither pass of the 8x8 kernel wraps: the
kernel agrees with its exact-arithmetic counterpart at every output
offset. -/
lemma hadamard8_eq_exact (src : ℕ → ℤ) (stride : ℕ)
    (hb : ∀ r, r < 8 → ∀ c, c < 8 →
      -4095 ≤ src (r * stride + c) ∧ src (r * stride + c) ≤ 4095)
    (n : ℕ) :
    aom_highbd_hadamard_8x8_neon src stride n = hadamard8_exact src stride n := by
  simp only [aom_highbd_hadamard_8x8_neon, hadamard8_exact]
  rw [second_pass_congr
    (fun i =>
      hadamard_highbd_col8_first_pass (fun r => src (r * stride + i))
        (4 * (n / 32) + n % 4))
    (fun i =>
      hadamard_col8_exact (fun r => src (r * stride + i))
        (4 * (n / 32) + n % 4))
    (fun i hi => first_pass_eq_exact _ (fun r hr => hb r hr i hi) _) _]
  exact second_pass_eq_exact _
    (fun i hi => by
      have h := col8_exact_bound (fun r => src (r * stride + i))
        (fun r hr => hb r hr i hi) (4 * (n / 32) + n % 4)
      exact ⟨by omega, by omega⟩) _

/-- A 12-bit bound over a 16x16 block restricts to each of its four 8x8
quadrants (in the flat pointer-offset form the quadrant kernels read). -/
lemma quadrant_bounds16 (src : ℕ → ℤ) (stride : ℕ)
    (hb : ∀ r, r < 16 → ∀ c, c < 16 →
      -4095 ≤ src (r * stride + c) ∧ src (r * stride + c) ≤ 4095) :
    (∀ r, r < 8 → ∀ c, c < 8 →
      -4095 ≤ src (r * stride + c) ∧ src (r * stride + c) ≤ 4095) ∧
    (∀ r, r < 8 → ∀ c, c < 8 →
      -4095 ≤ (fun k => src (8 + k)) (r * stride + c) ∧
        (fun k => src (8 + k)) (r * stride + c) ≤ 4095) ∧
    (∀ r, r < 8 → ∀ c, c < 8 →
      -4095 ≤ (fun k => src (8 * stride + k)) (r * stride + c) ∧
        (fun k => src (8 * stride + k)) (r * stride + c) ≤ 4095) ∧
    (∀ r, r < 8 → ∀ c, c < 8 →
      -4095 ≤ (fun k => src (8 * stride + 8 + k)) (r * stride + c) ∧
        (fun k => src (8 * stride + 8 + k)) (r * stride + c) ≤ 4095) := by
  refine ⟨fun r hr c hc => hb r (by omega) c (by omega),
    fun r hr c hc => ?_, fun r hr c hc => ?_, fun r hr c hc => ?_⟩
  · have e : 8 + (r * stride + c) = r * stride + (c + 8) := by ring
    simpa only [e] using hb r (by omega) (c + 8) (by omega)
  · have e : 8 * stride + (r * stride + c) = (r + 8) * stride + c := by ring
    simpa only [e] using hb (r + 8) (by omega) c (by omega)
  · have e : 8 * stride + 8 + (r * stride + c) = (r + 8) * stride + (c + 8) := by
      ring
    simpa only [e] using hb (r + 8) (by omega) (c + 8) (by omega)

/-- A 12-bit bound over a 32x32 block restricts to each of its four 16x16
quadrants. -/
lemma quadrant_bounds32 (src : ℕ → ℤ) (stride : ℕ)
    (hb : ∀ r, r < 32 → ∀ c, c < 32 →
      -4095 ≤ src (r * stride + c) ∧ src (r * stride + c) ≤ 4095) :
    (∀ r, r < 16 → ∀ c, c < 16 →
      -4095 ≤ src (r * stride + c) ∧ src (r * stride + c) ≤ 4095) ∧
    (∀ r, r < 16 → ∀ c, c < 16 →
      -4095 ≤ (fun k => src (16 + k)) (r * stride + c) ∧
        (fun k => src (16 + k)) (r * stride + c) ≤ 4095) ∧
    (∀ r, r < 16 → ∀ c, c < 16 →
      -4095 ≤ (fun k => src (16 * stride + k)) (r * stride + c) ∧
        (fun k => src (16 * stride + k)) (r * stride + c) ≤ 4095) ∧
    (∀ r, r < 16 → ∀ c, c < 16 →
      -4095 ≤ (fun k => src (16 * stride + 16 + k)) (r * stride + c) ∧
        (fun k => src (16 * stride + 16 + k)) (r * stride + c) ≤ 4095) := by
  refine ⟨fun r hr c hc => hb r (by omega) c (by omega),
    fun r hr c hc => ?_, fun r hr c hc => ?_, fun r hr c hc => ?_⟩
  · have e : 16 + (r * stride + c) = r * stride + (c + 16) := by ring
    simpa only [e] using hb r (by omega) (c + 16) (by omega)
  · have e : 16 * stride + (r * stride + c) = (r + 16) * stride + c := by ring
    simpa only [e] using hb (r + 16) (by omega) c (by omega)
  · have e : 16 * stride + 16 + (r * stride + c) = (r + 16) * stride + (c + 16) := by
      ring
    simpa only [e] using hb (r + 16) (by omega) (c + 16) (by omega)

/-- On a 12-bit-bounded 16x16 block the 16x16 kernel never wraps: it agrees
with its exact-arithmetic counterpart at every output offset. -/
lemma hadamard16_eq_exact (src : ℕ → ℤ) (stride : ℕ)
    (hb : ∀ r, r < 16 → ∀ c, c < 16 →
      -4095 ≤ src (r * stride + c) ∧ src (r * stride + c) ≤ 4095)
    (n : ℕ) :
    aom_highbd_hadamard_16x16_neon src stride n =
      hadamard16_exact src stride n := by
  obtain ⟨hb0, hb1, hb2, hb3⟩ := quadrant_bounds16 src stride hb
  have hquad : ∀ m,
      quadBuf 64 (aom_highbd_hadamard_8x8_neon src stride)
        (aom_highbd_hadamard_8x8_neon (fun k => src (8 + k)) stride)
        (aom_highbd_hadamard_8x8_neon (fun k => src (8 * stride + k)) stride)
        (aom_highbd_hadamard_8x8_neon (fun k => src (8 * stride + 8 + k)) stride) m =
      quadBuf 64 (hadamard8_exact src stride)
        (hadamard8_exact (fun k => src (8 + k)) stride)
        (hadamard8_exact (fun k => src (8 * stride + k)) stride)
        (hadamard8_exact (fun k => src (8 * stride + 8 + k)) stride) m := by
    intro m
    simp only [quadBuf]
    split_ifs
    · exact hadamard8_eq_exact src stride hb0 m
    · exact hadamard8_eq_exact _ stride hb1 _
    · exact hadamard8_eq_exact _ stride hb2 _
    · exact hadamard8_eq_exact _ stride hb3 _
  have hqb := quadBuf_bound 64 (aom_highbd_hadamard_8x8_neon src stride)
    (aom_highbd_hadamard_8x8_neon (fun k => src (8 + k)) stride)
    (aom_highbd_hadamard_8x8_neon (fun k => src (8 * stride + k)) stride)
    (aom_highbd_hadamard_8x8_neon (fun k => src (8 * stride + 8 + k)) stride)
    (-262144) 262144 (hadamard8_bound _ _) (hadamard8_bound _ _)
    (hadamard8_bound _ _) (hadamard8_bound _ _)
  simp only [aom_highbd_hadamard_16x16_neon, hadamard16_exact, combineBuf]
  rw [combineBuf_partial64 had16_combine _ 64 le_rfl n,
    combineBuf_partial64 had16_combine_exact _ 64 le_rfl n]
  simp only [← hquad]
  rw [had16_combine_eval _ _ _ _ (hqb (n % 64)) (hqb (n % 64 + 64))
    (hqb (n % 64 + 2 * 64)) (hqb (n % 64 + 3 * 64))]

/-- On a 12-bit-bounded 32x32 block the 32x32 kernel never wraps: it agrees
with its exact-arithmetic counterpart at every output offset. -/
lemma hadamard32_eq_exact (src : ℕ → ℤ) (stride : ℕ)
    (hb : ∀ r, r < 32 → ∀ c, c < 32 →
      -4095 ≤ src (r * stride + c) ∧ src (r * stride + c) ≤ 4095)
    (n : ℕ) :
    aom_highbd_hadamard_32x32_neon src stride n =
      hadamard32_exact src stride n := by
  obtain ⟨hb0, hb1, hb2, hb3⟩ := quadrant_bounds32 src stride hb
  have hquad : ∀ m,
      quadBuf 256 (aom_highbd_hadamard_16x16_neon src stride)
        (aom_highbd_hadamard_16x16_neon (fun k => src (16 + k)) stride)
        (aom_highbd_hadamard_16x16_neon (fun k => src (16 * stride + k)) stride)
        (aom_highbd_hadamard_16x16_neon (fun k => src (16 * stride + 16 + k)) stride) m =
      quadBuf 256 (hadamard16_exact src stride)
        (hadamard16_exact (fun k => src (16 + k)) stride)
        (hadamard16_exact (fun k => src (16 * stride + k)) stride)
        (hadamard16_exact (fun k => src (16 * stride + 16 + k)) stride) m := by
    intro m
    simp only [quadBuf]
    split_ifs
    · exact hadamard16_eq_exact src stride hb0 m
    · exact hadamard16_eq_exact _ stride hb1 _
    · exact hadamard16_eq_exact _ stride hb2 _
    · exact hadamard16_eq_exact _ stride hb3 _
  have hqb := quadBuf_bound 256 (aom_highbd_hadamard_16x16_neon src stride)
    (aom_highbd_hadamard_16x16_neon (fun k => src (16 + k)) stride)
    (aom_highbd_hadamard_16x16_neon (fun k => src (16 * stride + k)) stride)
    (aom_highbd_hadamard_16x16_neon (fun k => src (16 * stride + 16 + k)) stride)
    (-524288) 524288 (hadamard16_bound _ _) (hadamard16_bound _ _)
    (hadamard16_bound _ _) (hadamard16_bound _ _)
  simp only [aom_highbd_hadamard_32x32_neon, hadamard32_exact, combineBuf]
  rw [combineBuf_partial256 had32_combine _ 256 le_rfl n,
    combineBuf_partial256 had32_combine_exact _ 256 le_rfl n]
  simp only [← hquad]
  rw [had32_combine_eval _ _ _ _ (hqb (n % 256)) (hqb (n % 256 + 256))
    (hqb (n % 256 + 2 * 256)) (hqb (n % 256 + 3 * 256))]

/-! Componentwise values of the exact combine steps (definitional). -/

lemma c16x_fst (a0 a1 a2 a3 : ℤ) :
    (had16_combine_exact a0 a1 a2 a3).1 = (a0 + a1) / 2 + (a2 + a3) / 2 := rfl

lemma c16x_snd1 (a0 a1 a2 a3 : ℤ) :
    (had16_combine_exact a0 a1 a2 a3).2.1 = (a0 - a1) / 2 + (a2 - a3) / 2 := rfl

lemma c16x_snd2 (a0 a1 a2 a3 : ℤ) :
    (had16_combine_exact a0 a1 a2 a3).2.2.1 = (a0 + a1) / 2 - (a2 + a3) / 2 := rfl

lemma c16x_snd3 (a0 a1 a2 a3 : ℤ) :
    (had16_combine_exact a0 a1 a2 a3).2.2.2 = (a0 - a1) / 2 - (a2 - a3) / 2 := rfl

lemma c32x_fst (a0 a1 a2 a3 : ℤ) :
    (had32_combine_exact a0 a1 a2 a3).1 = (a0 + a1) / 4 + (a2 + a3) / 4 := rfl

lemma c32x_snd1 (a0 a1 a2 a3 : ℤ) :
    (had32_combine_exact a0 a1 a2 a3).2.1 = (a0 - a1) / 4 + (a2 - a3) / 4 := rfl

lemma c32x_snd2 (a0 a1 a2 a3 : ℤ) :
    (had32_combine_exact a0 a1 a2 a3).2.2.1 = (a0 + a1) / 4 - (a2 + a3) / 4 := rfl

lemma c32x_snd3 (a0 a1 a2 a3 : ℤ) :
    (had32_combine_exact a0 a1 a2 a3).2.2.2 = (a0 - a1) / 4 - (a2 - a3) / 4 := rfl

/-! Constant-block values of the three kernels. -/

/-- On a constant block of 12-bit-bounded value `C` the 8x8 kernel puts
`64 * C` at offset 0 and `0` everywhere else. -/
lemma hadamard8_const (C : ℤ) (stride : ℕ) (h1 : -4095 ≤ C) (h2 : C ≤ 4095)
    (n : ℕ) :
    aom_highbd_hadamard_8x8_neon (fun _ => C) stride n =
      if n = 0 then 64 * C else 0 := by
  simp only [aom_highbd_hadamard_8x8_neon]
  rw [second_pass_congr _
    (fun _ => if 4 * (n / 32) + n % 4 = 0 then 8 * C else 0)
    (fun i _ => by
      rw [first_pass_eq_exact _ (fun r _ => ⟨h1, h2⟩) _]
      exact col8_exact_const C _) _]
  rw [second_pass_eq_exact _ (fun i _ => by split_ifs <;> omega) _]
  rw [col8_exact_const]
  split_ifs <;> omega

/-- On a constant block of 12-bit-bounded value `C` the 16x16 kernel puts
`128 * C` at offset 0 and `0` everywhere else: the halving combine undoes
one of the two doublings contributed by the four quadrants. -/
lemma hadamard16_const (C : ℤ) (stride : ℕ) (h1 : -4095 ≤ C) (h2 : C ≤ 4095)
    (n : ℕ) :
    aom_highbd_hadamard_16x16_neon (fun _ => C) stride n =
      if n = 0 then 128 * C else 0 := by
  simp only [aom_highbd_hadamard_16x16_neon, combineBuf]
  rw [combineBuf_partial64 had16_combine _ 64 le_rfl n]
  have hq : ∀ m,
      quadBuf 64 (aom_highbd_hadamard_8x8_neon (fun _ => C) stride)
        (aom_highbd_hadamard_8x8_neon (fun _ => C) stride)
        (aom_highbd_hadamard_8x8_neon (fun _ => C) stride)
        (aom_highbd_hadamard_8x8_neon (fun _ => C) stride) m =
      if m = 0 ∨ m = 64 ∨ m = 128 ∨ m = 192 then 64 * C else 0 := by
    intro m
    simp only [quadBuf, hadamard8_const C stride h1 h2]
    split_ifs <;> omega
  simp only [hq]
  rw [had16_combine_eval _ _ _ _ (by split_ifs <;> omega)
    (by split_ifs <;> omega) (by split_ifs <;> omega) (by split_ifs <;> omega)]
  simp only [c16x_fst, c16x_snd1, c16x_snd2, c16x_snd3]
  split_ifs <;> (try simp only [false_or] at *) <;> omega

/-- On a constant block of 12-bit-bounded value `C` the 32x32 kernel also
puts `128 * C` (not `256 * C` or `512 * C`) at offset 0 and `0` everywhere
else: the quartering combine undoes both doublings. -/
lemma hadamard32_const (C : ℤ) (stride : ℕ) (h1 : -4095 ≤ C) (h2 : C ≤ 4095)
    (n : ℕ) :
    aom_highbd_hadamard_32x32_neon (fun _ => C) stride n =
      if n = 0 then 128 * C else 0 := by
  simp only [aom_highbd_hadamard_32x32_neon, combineBuf]
  rw [combineBuf_partial256 had32_combine _ 256 le_rfl n]
  have hq : ∀ m,
      quadBuf 256 (aom_highbd_hadamard_16x16_neon (fun _ => C) stride)
        (aom_highbd_hadamard_16x16_neon (fun _ => C) stride)
        (aom_highbd_hadamard_16x16_neon (fun _ => C) stride)
        (aom_highbd_hadamard_16x16_neon (fun _ => C) stride) m =
      if m = 0 ∨ m = 256 ∨ m = 512 ∨ m = 768 then 128 * C else 0 := by
    intro m
    simp only [quadBuf, hadamard16_const C stride h1 h2]
    split_ifs <;> omega
  simp only [hq]
  rw [had32_combine_eval _ _ _ _ (by split_ifs <;> omega)
    (by split_ifs <;> omega) (by split_ifs <;> omega) (by split_ifs <;> omega)]
  simp only [c32x_fst, c32x_snd1, c32x_snd2, c32x_snd3]
  split_ifs <;> (try simp only [false_or] at *) <;> omega

/-- The exact 8x8 kernel is additive (it is a fixed integer linear map). -/
lemma hadamard8_exact_add (A B : ℕ → ℤ) (stride n : ℕ) :
    hadamard8_exact (fun i => A i + B i) stride n =
      hadamard8_exact A stride n + hadamard8_exact B stride n := by
  simp only [hadamard8_exact]
  rw [show (fun i =>
        hadamard_col8_exact (fun r => A (r * stride + i) + B (r * stride + i))
          (4 * (n / 32) + n % 4)) =
      (fun i =>
        hadamard_col8_exact (fun r => A (r * stride + i)) (4 * (n / 32) + n % 4) +
        hadamard_col8_exact (fun r => B (r * stride + i)) (4 * (n / 32) + n % 4))
    from funext fun i => col8_exact_add _ _ _]
  exact col8_exact_add _ _ _

/-! Claim theorems. -/

/-- C1: for every 8x8 sample block, the 8x8 kernel applies two passes of the
one three-stage butterfly network stated by the spec (`butterfly8`), with
the transpose between the passes realized by the index plumbing, and writes
the eight results of each application with the fixed sequency permutation
baked into `butterfly8` — identically in the narrow 16-bit pass 1
(`vaddq_s16`/`vsubq_s16`) and the widened 32-bit pass 2
(`vaddq_s32`/`vsubq_s32`; the widening first stage of the source cannot
wrap on the 16-bit pass 1 outputs, so it coincides with the wrapping 32-bit
operations). -/
theorem c1_transform8_two_pass_butterfly (src : ℕ → ℤ) (stride n : ℕ) :
    (∀ a : ℕ → ℤ, ∀ k,
      hadamard_highbd_col8_first_pass a k =
        butterfly8 vaddq_s16 vsubq_s16 a k) ∧
    aom_highbd_hadamard_8x8_neon src stride n =
      butterfly8 vaddq_s32 vsubq_s32
        (fun i =>
          butterfly8 vaddq_s16 vsubq_s16 (fun r => src (r * stride + i))
            (4 * (n / 32) + n % 4))
        (n % 32 / 4) := by
  constructor
  · intro a k
    rfl
  · simp only [aom_highbd_hadamard_8x8_neon]
    exact second_pass_eq_butterfly32 _ (fun i _ => first_pass_bound _ _) _

/-- C2: for every 16x16 sample block, after the four quadrant 8x8 results
are placed at element offsets 0, 64, 128, 192, the combine step computes,
independently at each of the 64 in-quadrant positions `n` (with
`a0`/`a1`/`a2`/`a3` the top-left/top-right/bottom-left/bottom-right
quadrant coefficients at that position), `b0 = (a0+a1) >> 1`,
`b1 = (a0-a1) >> 1`, `b2 = (a2+a3) >> 1`, `b3 = (a2-a3) >> 1` with
arithmetic (floor) shifts — here exact floor division by 2, no wraparound —
then `c0 = b0+b2`, `c1 = b1+b3`, `c2 = b0-b2`, `c3 = b1-b3`, and writes
`c0, c1, c2, c3` back to the same four offsets. -/
theorem c2_transform16_combine (src : ℕ → ℤ) (stride n : ℕ) (hn : n < 64) :
    aom_highbd_hadamard_16x16_neon src stride n =
        (aom_highbd_hadamard_8x8_neon src stride n +
            aom_highbd_hadamard_8x8_neon (fun k => src (8 + k)) stride n) / 2 +
          (aom_highbd_hadamard_8x8_neon (fun k => src (8 * stride + k)) stride n +
            aom_highbd_hadamard_8x8_neon (fun k => src (8 * stride + 8 + k)) stride n) / 2 ∧
      aom_highbd_hadamard_16x16_neon src stride (n + 64) =
        (aom_highbd_hadamard_8x8_neon src stride n -
            aom_highbd_hadamard_8x8_neon (fun k => src (8 + k)) stride n) / 2 +
          (aom_highbd_hadamard_8x8_neon (fun k => src (8 * stride + k)) stride n -
            aom_highbd_hadamard_8x8_neon (fun k => src (8 * stride + 8 + k)) stride n) / 2 ∧
      aom_highbd_hadamard_16x16_neon src stride (n + 128) =
        (aom_highbd_hadamard_8x8_neon src stride n +
            aom_highbd_hadamard_8x8_neon (fun k => src (8 + k)) stride n) / 2 -
          (aom_highbd_hadamard_8x8_neon (fun k => src (8 * stride + k)) stride n +
            aom_highbd_hadamard_8x8_neon (fun k => src (8 * stride + 8 + k)) stride n) / 2 ∧
      aom_highbd_hadamard_16x16_neon src stride (n + 192) =
        (aom_highbd_hadamard_8x8_neon src stride n -
            aom_highbd_hadamard_8x8_neon (fun k => src (8 + k)) stride n) / 2 -
          (aom_highbd_hadamard_8x8_neon (fun k => src (8 * stride + k)) stride n -
            aom_highbd_hadamard_8x8_neon (fun k => src (8 * stride + 8 + k)) stride n) / 2 := by
  have hq0 := hadamard8_bound src stride n
  have hq1 := hadamard8_bound (fun k => src (8 + k)) stride n
  have hq2 := hadamard8_bound (fun k => src (8 * stride + k)) stride n
  have hq3 := hadamard8_bound (fun k => src (8 * stride + 8 + k)) stride n
  obtain ⟨e0, e1, e2, e3⟩ := combine_quad64 had16_combine
    (aom_highbd_hadamard_8x8_neon src stride)
    (aom_highbd_hadamard_8x8_neon (fun k => src (8 + k)) stride)
    (aom_highbd_hadamard_8x8_neon (fun k => src (8 * stride + k)) stride)
    (aom_highbd_hadamard_8x8_neon (fun k => src (8 * stride + 8 + k)) stride)
    n hn
  rw [had16_combine_eval _ _ _ _ hq0 hq1 hq2 hq3] at e0 e1 e2 e3
  rw [c16x_fst] at e0
  rw [c16x_snd1] at e1
  rw [c16x_snd2] at e2
  rw [c16x_snd3] at e3
  exact ⟨e0, e1, e2, e3⟩

/-- Witness for C2 at the all-zero block, stride 8, position 0. -/
theorem c2_transform16_combine_witness :
    aom_highbd_hadamard_16x16_neon (fun _ => 0) 8 0 =
      (aom_highbd_hadamard_8x8_neon (fun _ => 0) 8 0 +
          aom_highbd_hadamard_8x8_neon (fun _ => 0) 8 0) / 2 +
        (aom_highbd_hadamard_8x8_neon (fun _ => 0) 8 0 +
          aom_highbd_hadamard_8x8_neon (fun _ => 0) 8 0) / 2 :=
  (c2_transform16_combine (fun _ => 0) 8 0 (by decide)).1

/-- C3: for every 32x32 sample block, the 32x32 kernel applies the 16x16
kernel to each of the four quadrants, places the results at element offsets
0, 256, 512, 768, and then, independently at each of the 256 in-quadrant
positions, computes `b0 = (a0+a1) >> 2`, `b1 = (a0-a1) >> 2`,
`b2 = (a2+a3) >> 2`, `b3 = (a2-a3) >> 2` with the same arithmetic (floor)
shift semantics — exact floor division by 4, quarter-scaling applied before
any of the final additions — then writes `c0 = b0+b2`, `c1 = b1+b3`,
`c2 = b0-b2`, `c3 = b1-b3` back to those same four offsets. -/
theorem c3_transform32_combine (src : ℕ → ℤ) (stride n : ℕ) (hn : n < 256) :
    aom_highbd_hadamard_32x32_neon src stride n =
        (aom_highbd_hadamard_16x16_neon src stride n +
            aom_highbd_hadamard_16x16_neon (fun k => src (16 + k)) stride n) / 4 +
          (aom_highbd_hadamard_16x16_neon (fun k => src (16 * stride + k)) stride n +
            aom_highbd_hadamard_16x16_neon (fun k => src (16 * stride + 16 + k)) stride n) / 4 ∧
      aom_highbd_hadamard_32x32_neon src stride (n + 256) =
        (aom_highbd_hadamard_16x16_neon src stride n -
            aom_highbd_hadamard_16x16_neon (fun k => src (16 + k)) stride n) / 4 +
          (aom_highbd_hadamard_16x16_neon (fun k => src (16 * stride + k)) stride n -
            aom_highbd_hadamard_16x16_neon (fun k => src (16 * stride + 16 + k)) stride n) / 4 ∧
      aom_highbd_hadamard_32x32_neon src stride (n + 512) =
        (aom_highbd_hadamard_16x16_neon src stride n +
            aom_highbd_hadamard_16x16_neon (fun k => src (16 + k)) stride n) / 4 -
          (aom_highbd_hadamard_16x16_neon (fun k => src (16 * stride + k)) stride n +
            aom_highbd_hadamard_16x16_neon (fun k => src (16 * stride + 16 + k)) stride n) / 4 ∧
      aom_highbd_hadamard_32x32_neon src stride (n + 768) =
        (aom_highbd_hadamard_16x16_neon src stride n -
            aom_highbd_hadamard_16x16_neon (fun k => src (16 + k)) stride n) / 4 -
          (aom_highbd_hadamard_16x16_neon (fun k => src (16 * stride + k)) stride n -
            aom_highbd_hadamard_16x16_neon (fun k => src (16 * stride + 16 + k)) stride n) / 4 := by
  have hq0 := hadamard16_bound src stride n
  have hq1 := hadamard16_bound (fun k => src (16 + k)) stride n
  have hq2 := hadamard16_bound (fun k => src (16 * stride + k)) stride n
  have hq3 := hadamard16_bound (fun k => src (16 * stride + 16 + k)) stride n
  obtain ⟨e0, e1, e2, e3⟩ := combine_quad256 had32_combine
    (aom_highbd_hadamard_16x16_neon src stride)
    (aom_highbd_hadamard_16x16_neon (fun k => src (16 + k)) stride)
    (aom_highbd_hadamard_16x16_neon (fun k => src (16 * stride + k)) stride)
    (aom_highbd_hadamard_16x16_neon (fun k => src (16 * stride + 16 + k)) stride)
    n hn
  rw [had32_combine_eval _ _ _ _ hq0 hq1 hq2 hq3] at e0 e1 e2 e3
  rw [c32x_fst] at e0
  rw [c32x_snd1] at e1
  rw [c32x_snd2] at e2
  rw [c32x_snd3] at e3
  exact ⟨e0, e1, e2, e3⟩

/-- Witness for C3 at the all-zero block, stride 16, position 0. -/
theorem c3_transform32_combine_witness :
    aom_highbd_hadamard_32x32_neon (fun _ => 0) 16 0 =
      (aom_highbd_hadamard_16x16_neon (fun _ => 0) 16 0 +
          aom_highbd_hadamard_16x16_neon (fun _ => 0) 16 0) / 4 +
        (aom_highbd_hadamard_16x16_neon (fun _ => 0) 16 0 +
          aom_highbd_hadamard_16x16_neon (fun _ => 0) 16 0) / 4 :=
  (c3_transform32_combine (fun _ => 0) 16 0 (by decide)).1

/-- C4: on a constant block of value `C` within the bit-depth bound, the
8x8 kernel yields `64 * C` at position 0, and the 16x16 and 32x32 kernels
both yield `128 * C` (not `256 * C` or `512 * C`) at position 0, with every
other position of each output block equal to 0.  The `C = 10` instances
(640 and 1280) and the all-zero `C = 0` instance follow by
instantiation. -/
theorem c4_constant_block_dc (stride : ℕ) (C : ℤ) (n : ℕ)
    (h1 : -4095 ≤ C) (h2 : C ≤ 4095) (h3 : 0 < n) :
    aom_highbd_hadamard_8x8_neon (fun _ => C) stride 0 = 64 * C ∧
    aom_highbd_hadamard_16x16_neon (fun _ => C) stride 0 = 128 * C ∧
    aom_highbd_hadamard_32x32_neon (fun _ => C) stride 0 = 128 * C ∧
    (n < 64 → aom_highbd_hadamard_8x8_neon (fun _ => C) stride n = 0) ∧
    (n < 256 → aom_highbd_hadamard_16x16_neon (fun _ => C) stride n = 0) ∧
    (n < 1024 → aom_highbd_hadamard_32x32_neon (fun _ => C) stride n = 0) := by
  refine ⟨(hadamard8_const C stride h1 h2 0).trans (if_pos rfl),
    (hadamard16_const C stride h1 h2 0).trans (if_pos rfl),
    (hadamard32_const C stride h1 h2 0).trans (if_pos rfl),
    fun _ => (hadamard8_const C stride h1 h2 n).trans (if_neg (by omega)),
    fun _ => (hadamard16_const C stride h1 h2 n).trans (if_neg (by omega)),
    fun _ => (hadamard32_const C stride h1 h2 n).trans (if_neg (by omega))⟩

/-- Witness for C4 at `C = 10`, stride 8, and non-zero position 5: position
0 carries 640 for the 8x8 kernel and 1280 for the 16x16 and 32x32
kernels. -/
theorem c4_constant_block_dc_witness :
    aom_highbd_hadamard_8x8_neon (fun _ => 10) 8 0 = 640 ∧
    aom_highbd_hadamard_16x16_neon (fun _ => 10) 8 0 = 1280 ∧
    aom_highbd_hadamard_32x32_neon (fun _ => 10) 8 0 = 1280 ∧
    (5 < 64 → aom_highbd_hadamard_8x8_neon (fun _ => 10) 8 5 = 0) ∧
    (5 < 256 → aom_highbd_hadamard_16x16_neon (fun _ => 10) 8 5 = 0) ∧
    (5 < 1024 → aom_highbd_hadamard_32x32_neon (fun _ => 10) 8 5 = 0) :=
  c4_constant_block_dc 8 10 5 (by decide) (by decide) (by decide)

/-- C5: on any two 8x8 blocks `A` and `B` that satisfy the 12-bit bound and
whose element-wise sum still satisfies it, the 8x8 kernel is exactly
additive at every one of the 64 coefficient positions: no rounding and no
wraparound occurs, so the integer equality is exact. -/
theorem c5_transform8_additive (A B : ℕ → ℤ) (stride n : ℕ) (_hn : n < 64)
    (hA : ∀ r, r < 8 → ∀ c, c < 8 →
      -4095 ≤ A (r * stride + c) ∧ A (r * stride + c) ≤ 4095)
    (hB : ∀ r, r < 8 → ∀ c, c < 8 →
      -4095 ≤ B (r * stride + c) ∧ B (r * stride + c) ≤ 4095)
    (hAB : ∀ r, r < 8 → ∀ c, c < 8 →
      -4095 ≤ A (r * stride + c) + B (r * stride + c) ∧
        A (r * stride + c) + B (r * stride + c) ≤ 4095) :
    aom_highbd_hadamard_8x8_neon (fun i => A i + B i) stride n =
      aom_highbd_hadamard_8x8_neon A stride n +
        aom_highbd_hadamard_8x8_neon B stride n := by
  rw [hadamard8_eq_exact A stride hA n, hadamard8_eq_exact B stride hB n,
    hadamard8_eq_exact (fun i => A i + B i) stride hAB n,
    hadamard8_exact_add]

/-- Witness for C5 at the constant blocks `A = 1`, `B = 2`, stride 8,
position 0. -/
theorem c5_transform8_additive_witness :
    aom_highbd_hadamard_8x8_neon (fun _ => (1 : ℤ) + 2) 8 0 =
      aom_highbd_hadamard_8x8_neon (fun _ => (1 : ℤ)) 8 0 +
        aom_highbd_hadamard_8x8_neon (fun _ => (2 : ℤ)) 8 0 :=
  c5_transform8_additive (fun _ => 1) (fun _ => 2) 8 0 (by decide)
    (by decide) (by decide) (by decide)

/-- C6: the 16x16 kernel equals the composition of its parts: the 8x8
kernel applied independently to the four non-overlapping quadrants of the
sample grid — top-left at (row 0, col 0), top-right at (row 0, col 8),
bottom-left at (row 8, col 0), bottom-right at (row 8, col 8), in source
stride units — placed at output element offsets 0, 64, 128, 192 and
combined by `Compose16`.  The composition is a function of the four
quadrant results alone, so the order in which the quadrants are transformed
cannot affect it. -/
theorem c6_transform16_compose (src : ℕ → ℤ) (stride n : ℕ) :
    aom_highbd_hadamard_16x16_neon src stride n =
      Compose16
        (aom_highbd_hadamard_8x8_neon (quadrantSrc src stride 0 0) stride)
        (aom_highbd_hadamard_8x8_neon (quadrantSrc src stride 0 8) stride)
        (aom_highbd_hadamard_8x8_neon (quadrantSrc src stride 8 0) stride)
        (aom_highbd_hadamard_8x8_neon (quadrantSrc src stride 8 8) stride) n := by
  simp only [aom_highbd_hadamard_16x16_neon, Compose16]
  rw [show quadrantSrc src stride 0 0 = src
      from funext fun k => congrArg src (by omega),
    show quadrantSrc src stride 0 8 = (fun k => src (8 + k))
      from funext fun k => congrArg src (by omega),
    show quadrantSrc src stride 8 0 = (fun k => src (8 * stride + k))
      from funext fun k => congrArg src (by omega),
    show quadrantSrc src stride 8 8 = (fun k => src (8 * stride + 8 + k))
      from funext fun k => rfl]

/-- C7: on any input vector of the pass-1 butterfly network (a column of an
8x8 block) whose entries have magnitude at most 4095 (12-bit depth), the
narrow mod-2^16 pass-1 arithmetic agrees exactly with unbounded integer
arithmetic, and every intermediate (both butterfly stages, written out as
the exact sums they compute) and every output has magnitude at most 32760,
within the signed 16-bit bound 32767. -/
theorem c7_pass1_no_overflow (a : ℕ → ℤ) (k : ℕ)
    (hb : ∀ i, i < 8 → -4095 ≤ a i ∧ a i ≤ 4095) :
    hadamard_highbd_col8_first_pass a k = hadamard_col8_exact a k ∧
    (-32760 ≤ hadamard_col8_exact a k ∧ hadamard_col8_exact a k ≤ 32760) ∧
    (-32760 ≤ a 0 + a 1 ∧ a 0 + a 1 ≤ 32760) ∧
    (-32760 ≤ a 0 - a 1 ∧ a 0 - a 1 ≤ 32760) ∧
    (-32760 ≤ a 2 + a 3 ∧ a 2 + a 3 ≤ 32760) ∧
    (-32760 ≤ a 2 - a 3 ∧ a 2 - a 3 ≤ 32760) ∧
    (-32760 ≤ a 4 + a 5 ∧ a 4 + a 5 ≤ 32760) ∧
    (-32760 ≤ a 4 - a 5 ∧ a 4 - a 5 ≤ 32760) ∧
    (-32760 ≤ a 6 + a 7 ∧ a 6 + a 7 ≤ 32760) ∧
    (-32760 ≤ a 6 - a 7 ∧ a 6 - a 7 ≤ 32760) ∧
    (-32760 ≤ (a 0 + a 1) + (a 2 + a 3) ∧ (a 0 + a 1) + (a 2 + a 3) ≤ 32760) ∧
    (-32760 ≤ (a 0 + a 1) - (a 2 + a 3) ∧ (a 0 + a 1) - (a 2 + a 3) ≤ 32760) ∧
    (-32760 ≤ (a 0 - a 1) + (a 2 - a 3) ∧ (a 0 - a 1) + (a 2 - a 3) ≤ 32760) ∧
    (-32760 ≤ (a 0 - a 1) - (a 2 - a 3) ∧ (a 0 - a 1) - (a 2 - a 3) ≤ 32760) ∧
    (-32760 ≤ (a 4 + a 5) + (a 6 + a 7) ∧ (a 4 + a 5) + (a 6 + a 7) ≤ 32760) ∧
    (-32760 ≤ (a 4 + a 5) - (a 6 + a 7) ∧ (a 4 + a 5) - (a 6 + a 7) ≤ 32760) ∧
    (-32760 ≤ (a 4 - a 5) + (a 6 - a 7) ∧ (a 4 - a 5) + (a 6 - a 7) ≤ 32760) ∧
    (-32760 ≤ (a 4 - a 5) - (a 6 - a 7) ∧ (a 4 - a 5) - (a 6 - a 7) ≤ 32760) := by
  have h0 := hb 0 (by omega)
  have h1 := hb 1 (by omega)
  have h2 := hb 2 (by omega)
  have h3 := hb 3 (by omega)
  have h4 := hb 4 (by omega)
  have h5 := hb 5 (by omega)
  have h6 := hb 6 (by omega)
  have h7 := hb 7 (by omega)
  refine ⟨first_pass_eq_exact a hb k, col8_exact_bound a hb k, ?bnds⟩
  omega

/-- Witness for C7 at the exact boundary block where every sample is +4095,
at output index 0 (where the exact output value is 8 * 4095 = 32760). -/
theorem c7_pass1_no_overflow_witness :
    hadamard_highbd_col8_first_pass (fun _ => 4095) 0 =
        hadamard_col8_exact (fun _ => 4095) 0 ∧
    (-32760 ≤ hadamard_col8_exact (fun _ => 4095) 0 ∧
      hadamard_col8_exact (fun _ => 4095) 0 ≤ 32760) ∧
    (-32760 ≤ (4095 : ℤ) + 4095 ∧ (4095 : ℤ) + 4095 ≤ 32760) ∧
    (-32760 ≤ (4095 : ℤ) - 4095 ∧ (4095 : ℤ) - 4095 ≤ 32760) ∧
    (-32760 ≤ (4095 : ℤ) + 4095 ∧ (4095 : ℤ) + 4095 ≤ 32760) ∧
    (-32760 ≤ (4095 : ℤ) - 4095 ∧ (4095 : ℤ) - 4095 ≤ 32760) ∧
    (-32760 ≤ (4095 : ℤ) + 4095 ∧ (4095 : ℤ) + 4095 ≤ 32760) ∧
    (-32760 ≤ (4095 : ℤ) - 4095 ∧ (4095 : ℤ) - 4095 ≤ 32760) ∧
    (-32760 ≤ (4095 : ℤ) + 4095 ∧ (4095 : ℤ) + 4095 ≤ 32760) ∧
    (-32760 ≤ (4095 : ℤ) - 4095 ∧ (4095 : ℤ) - 4095 ≤ 32760) ∧
    (-32760 ≤ ((4095 : ℤ) + 4095) + ((4095 : ℤ) + 4095) ∧
      ((4095 : ℤ) + 4095) + ((4095 : ℤ) + 4095) ≤ 32760) ∧
    (-32760 ≤ ((4095 : ℤ) + 4095) - ((4095 : ℤ) + 4095) ∧
      ((4095 : ℤ) + 4095) - ((4095 : ℤ) + 4095) ≤ 32760) ∧
    (-32760 ≤ ((4095 : ℤ) - 4095) + ((4095 : ℤ) - 4095) ∧
      ((4095 : ℤ) - 4095) + ((4095 : ℤ) - 4095) ≤ 32760) ∧
    (-32760 ≤ ((4095 : ℤ) - 4095) - ((4095 : ℤ) - 4095) ∧
      ((4095 : ℤ) - 4095) - ((4095 : ℤ) - 4095) ≤ 32760) ∧
    (-32760 ≤ ((4095 : ℤ) + 4095) + ((4095 : ℤ) + 4095) ∧
      ((4095 : ℤ) + 4095) + ((4095 : ℤ) + 4095) ≤ 32760) ∧
    (-32760 ≤ ((4095 : ℤ) + 4095) - ((4095 : ℤ) + 4095) ∧
      ((4095 : ℤ) + 4095) - ((4095 : ℤ) + 4095) ≤ 32760) ∧
    (-32760 ≤ ((4095 : ℤ) - 4095) + ((4095 : ℤ) - 4095) ∧
      ((4095 : ℤ) - 4095) + ((4095 : ℤ) - 4095) ≤ 32760) ∧
    (-32760 ≤ ((4095 : ℤ) - 4095) - ((4095 : ℤ) - 4095) ∧
      ((4095 : ℤ) - 4095) - ((4095 : ℤ) - 4095) ≤ 32760) :=
  c7_pass1_no_overflow (fun _ => 4095) 0 (fun i _ => by norm_num)

/-- C8: on a 12-bit-bounded 32x32 block no signed 32-bit value overflows
anywhere in the 8 -> 16 -> 32 recursion: the 32x32 kernel agrees with exact
unbounded integer arithmetic at every offset (and so do the 16x16 and 8x8
kernels on the top-left quadrants), every 8x8 and 16x16 quadrant
coefficient and every 32x32 output stays strictly inside the signed 32-bit
range, and the pre-shift sums and differences `a0 ± a1`, `a2 ± a3` that the
32x32 combine computes in full 32-bit width before shifting stay inside the
signed 32-bit range as well. -/
theorem c8_no_int32_overflow (src : ℕ → ℤ) (stride : ℕ)
    (hb : ∀ r, r < 32 → ∀ c, c < 32 →
      -4095 ≤ src (r * stride + c) ∧ src (r * stride + c) ≤ 4095) (n : ℕ) :
    aom_highbd_hadamard_32x32_neon src stride n =
        hadamard32_exact src stride n ∧
    aom_highbd_hadamard_16x16_neon src stride n =
        hadamard16_exact src stride n ∧
    aom_highbd_hadamard_8x8_neon src stride n = hadamard8_exact src stride n ∧
    (-2147483648 < aom_highbd_hadamard_8x8_neon src stride n ∧
      aom_highbd_hadamard_8x8_neon src stride n < 2147483648) ∧
    (-2147483648 < aom_highbd_hadamard_16x16_neon src stride n ∧
      aom_highbd_hadamard_16x16_neon src stride n < 2147483648) ∧
    (-2147483648 < aom_highbd_hadamard_32x32_neon src stride n ∧
      aom_highbd_hadamard_32x32_neon src stride n < 2147483648) ∧
    (-2147483648 < aom_highbd_hadamard_16x16_neon src stride n +
        aom_highbd_hadamard_16x16_neon (fun k => src (16 + k)) stride n ∧
      aom_highbd_hadamard_16x16_neon src stride n +
        aom_highbd_hadamard_16x16_neon (fun k => src (16 + k)) stride n <
          2147483648) ∧
    (-2147483648 < aom_highbd_hadamard_16x16_neon src stride n -
        aom_highbd_hadamard_16x16_neon (fun k => src (16 + k)) stride n ∧
      aom_highbd_hadamard_16x16_neon src stride n -
        aom_highbd_hadamard_16x16_neon (fun k => src (16 + k)) stride n <
          2147483648) ∧
    (-2147483648 < aom_highbd_hadamard_16x16_neon (fun k => src (16 * stride + k)) stride n +
        aom_highbd_hadamard_16x16_neon (fun k => src (16 * stride + 16 + k)) stride n ∧
      aom_highbd_hadamard_16x16_neon (fun k => src (16 * stride + k)) stride n +
        aom_highbd_hadamard_16x16_neon (fun k => src (16 * stride + 16 + k)) stride n <
          2147483648) ∧
    (-2147483648 < aom_highbd_hadamard_16x16_neon (fun k => src (16 * stride + k)) stride n -
        aom_highbd_hadamard_16x16_neon (fun k => src (16 * stride + 16 + k)) stride n ∧
      aom_highbd_hadamard_16x16_neon (fun k => src (16 * stride + k)) stride n -
        aom_highbd_hadamard_16x16_neon (fun k => src (16 * stride + 16 + k)) stride n <
          2147483648) := by
  have hb16 : ∀ r, r < 16 → ∀ c, c < 16 →
      -4095 ≤ src (r * stride + c) ∧ src (r * stride + c) ≤ 4095 :=
    fun r hr c hc => hb r (by omega) c (by omega)
  have hb8 : ∀ r, r < 8 → ∀ c, c < 8 →
      -4095 ≤ src (r * stride + c) ∧ src (r * stride + c) ≤ 4095 :=
    fun r hr c hc => hb r (by omega) c (by omega)
  have b8 := hadamard8_bound src stride n
  have b16 := hadamard16_bound src stride n
  have b16tr := hadamard16_bound (fun k => src (16 + k)) stride n
  have b16bl := hadamard16_bound (fun k => src (16 * stride + k)) stride n
  have b16br := hadamard16_bound (fun k => src (16 * stride + 16 + k)) stride n
  have b32 := hadamard32_bound src stride n
  refine ⟨hadamard32_eq_exact src stride hb n,
    hadamard16_eq_exact src stride hb16 n,
    hadamard8_eq_exact src stride hb8 n, ?bnds⟩
  omega

/-- Witness for C8 at the all-4095 block, stride 32, offset 0. -/
theorem c8_no_int32_overflow_witness :
    aom_highbd_hadamard_32x32_neon (fun _ => 4095) 32 0 =
      hadamard32_exact (fun _ => 4095) 32 0 :=
  (c8_no_int32_overflow (fun _ => 4095) 32 (fun r _ c _ => by norm_num) 0).1

/-- C9, counterexample: the coefficient for sequency row `r` and column `c`
does not occupy buffer index `8*r + c`.  On the unit impulse at sample
(row 0, column 2), buffer index `8*0 + 1` holds `1`, while the 2-D sequency
coefficient at row 0, column 1 is `-1`. -/
theorem c9_layout_counterexample :
    aom_highbd_hadamard_8x8_neon imp8 8 (8 * 0 + 1) ≠ coeff2d imp8 8 0 1 := by
  decide

/-- C9, amended: the 8x8 output is written with no stride or gaps, the two
pass-2 groups occupying the contiguous halves `0..31` (pass-1 sequency
indices 0..3) and `32..63` (pass-1 sequency indices 4..7) of the buffer,
each half an 8x4 row-major block indexed by the pass-2 sequency index and
then the in-group lane; hence the coefficient for sequency row `r` (down
the columns, computed by pass 1) and sequency column `c` (across the
columns, computed by pass 2) occupies buffer index
`32*(r/4) + 4*c + r%4` — not `8*r + c` — for all `r, c` in `0..7`, the
index map being a bijection onto `0..63`. -/
theorem c9_layout_amended (src : ℕ → ℤ) (stride : ℕ)
    (hb : ∀ r, r < 8 → ∀ c, c < 8 →
      -4095 ≤ src (r * stride + c) ∧ src (r * stride + c) ≤ 4095)
    (r c : ℕ) (hr : r < 8) (hc : c < 8) :
    32 * (r / 4) + 4 * c + r % 4 < 64 ∧
    aom_highbd_hadamard_8x8_neon src stride (32 * (r / 4) + 4 * c + r % 4) =
      coeff2d src stride r c := by
  constructor
  · omega
  · rw [hadamard8_eq_exact src stride hb]
    simp only [hadamard8_exact, coeff2d]
    rw [show 4 * ((32 * (r / 4) + 4 * c + r % 4) / 32) +
          (32 * (r / 4) + 4 * c + r % 4) % 4 = r by omega,
      show (32 * (r / 4) + 4 * c + r % 4) % 32 / 4 = c by omega]

/-- Witness for the amended C9 at the impulse block, row sequency 0, column
sequency 1 (the very pair of the counterexample). -/
theorem c9_layout_amended_witness :
    32 * (0 / 4) + 4 * 1 + 0 % 4 < 64 ∧
    aom_highbd_hadamard_8x8_neon imp8 8 (32 * (0 / 4) + 4 * 1 + 0 % 4) =
      coeff2d imp8 8 0 1 :=
  c9_layout_amended imp8 8
    (fun r _ c _ => by constructor <;> (simp only [imp8]; split_ifs <;> decide))
    0 1 (by decide) (by decide)

/-- C10: for all in-range signed 32-bit quadrant coefficients `a0`, `a1`,
the halving operations used by the 16x16 combine compute the exact
mathematical floor of `(a0+a1)/2` and `(a0-a1)/2` with no intermediate
wraparound, because the sum and difference are formed at full intermediate
precision; by contrast the 32x32 combine adds in 32-bit width before
shifting, and wraps modulo `2^32` when the pre-shift sum overflows: at
`a0 = a1 = 2^30` it yields `-2^29` where the exact floor of `(a0+a1)/4` is
`+2^29`. -/
theorem c10_halving_precision (a0 a1 : ℤ)
    (h0 : -2147483648 ≤ a0 ∧ a0 < 2147483648)
    (h1 : -2147483648 ≤ a1 ∧ a1 < 2147483648) :
    vhaddq_s32 a0 a1 = (a0 + a1) / 2 ∧
    vhsubq_s32 a0 a1 = (a0 - a1) / 2 ∧
    vshrq_n_s32 (vaddq_s32 1073741824 1073741824) 2 = -536870912 ∧
    ((1073741824 : ℤ) + 1073741824) / 4 = 536870912 := by
  refine ⟨?hadd, ?hsub, ?wrapped, ?exact4⟩
  · simp only [vhaddq_s32, wrap32]
    omega
  · simp only [vhsubq_s32, wrap32]
    omega
  · decide
  · decide

/-- Witness for C10 at `a0 = 7`, `a1 = -9`. -/
theorem c10_halving_precision_witness :
    vhaddq_s32 7 (-9) = ((7 : ℤ) + -9) / 2 ∧
    vhsubq_s32 7 (-9) = ((7 : ℤ) - -9) / 2 ∧
    vshrq_n_s32 (vaddq_s32 1073741824 1073741824) 2 = -536870912 ∧
    ((1073741824 : ℤ) + 1073741824) / 4 = 536870912 :=
  c10_halving_precision 7 (-9) (by decide) (by decide)

end AomHbd
